import Mathlib

/-!
Verification development for the `skill-chunk-md` chunk validation and
diagnostics scripts (`scripts/validate_chunks.py`, `scripts/diagnose_chunks.py`).

The Python code is shallowly embedded as executable Lean definitions:

* YAML frontmatter values (the result of `yaml.safe_load`) become the inductive
  type `Yaml`; Python operations that can raise (`in` on a non-container,
  subscripting, `.get` on a non-dict, `set.add` of an unhashable value) are
  modelled in the `Except PyErr` monad, where `.error` represents an uncaught
  Python exception propagating out of the script.
* The document body is modelled as a list of lines, each line being either a
  single well-formed open marker `<Chunk id="...">`, a single close marker
  `</Chunk>`, or plain text.  Both scripts scan lines / text for the same
  marker shapes, so this is the fragment language the claims quantify over.
* Python floats appearing in threshold comparisons (`0.6`, `0.8`, `0.7`,
  integer division for Jaccard similarity) are modelled as exact rationals.
* Issue messages built with f-strings are modelled as structured issue kinds
  carrying the values interpolated into the message.
-/

/-- Severity of a reported issue (`'error' | 'warning' | 'info'`). -/
inductive Sev where
  | error
  | warning
  | info
deriving DecidableEq, Repr

/-- A YAML value as produced by `yaml.safe_load` (restricted to the value
shapes the scripts and the claims exercise; floats do not occur in chunk
frontmatter fields handled by the code paths under study). -/
inductive Yaml where
  | null : Yaml
  | bool : Bool → Yaml
  | int : Int → Yaml
  | str : String → Yaml
  | list : List Yaml → Yaml
  | map : List (String × Yaml) → Yaml

/-- A Python exception escaping the script (`TypeError` from `in` /
subscripting / `Path./` on bad operands, `AttributeError` from `.get` on a
non-dict). -/
inductive PyErr where
  | typeError
  | attributeError
deriving DecidableEq, Repr

/-!
Character-list implementations of the Python string operations the scripts
use.  Lean core implements most `String` functions over byte positions with
well-founded recursion, which the kernel cannot unfold, so structural
recursion over `String.data` is used instead; each definition states the
Python operation it implements.
-/

/-- Whether the first list is a leading piece of the second. -/
def startsWithList : List Char → List Char → Bool
  | [], _ => true
  | _ :: _, [] => false
  | n :: ns, h :: hs => n = h && startsWithList ns hs

/-- Whether the first list occurs contiguously inside the second
(Python `needle in haystack` for strings). -/
def containsList (needle : List Char) : List Char → Bool
  | [] => needle.isEmpty
  | h :: hs => startsWithList needle (h :: hs) || containsList needle hs

/-- Python `str.lower()` (per-character, ASCII as used by the documents). -/
def pyLower (s : String) : String :=
  String.mk (s.data.map Char.toLower)

/-- Drops leading and trailing whitespace. -/
def trimChars (cs : List Char) : List Char :=
  ((cs.dropWhile Char.isWhitespace).reverse.dropWhile Char.isWhitespace).reverse

/-- Python `str.strip()`. -/
def pyStrip (s : String) : String :=
  String.mk (trimChars s.data)

/-- Maximal runs of non-whitespace characters (accumulator reversed). -/
def fieldsAux (cur : List Char) : List Char → List (List Char)
  | [] => if cur.isEmpty then [] else [cur.reverse]
  | c :: cs =>
    if c.isWhitespace then
      if cur.isEmpty then fieldsAux [] cs else cur.reverse :: fieldsAux [] cs
    else
      fieldsAux (c :: cur) cs

/-- Python `str.split()` with no separator: whitespace-delimited fields,
empty pieces dropped. -/
def pySplit (s : String) : List String :=
  (fieldsAux [] s.data).map String.mk

/-- Split at every occurrence of a separator character, keeping empty
pieces (accumulator reversed). -/
def splitOnCharAux (sep : Char) (cur : List Char) : List Char → List (List Char)
  | [] => [cur.reverse]
  | c :: cs =>
    if c = sep then cur.reverse :: splitOnCharAux sep [] cs
    else splitOnCharAux sep (c :: cur) cs

/-- Python `str.split(sep)` for a one-character separator. -/
def splitOnChar (sep : Char) (s : String) : List String :=
  (splitOnCharAux sep [] s.data).map String.mk

/-- Python `sep.join(parts)` for a one-character separator. -/
def joinWithChar (sep : Char) (ls : List String) : String :=
  String.mk (List.intercalate [sep] (ls.map String.data))

/-- The numeric value of a digit string (used only after an all-digits
check). -/
def digitsToNat (cs : List Char) : Nat :=
  cs.foldl (fun acc c => acc * 10 + (c.toNat - '0'.toNat)) 0

/-- Lexicographic comparison of character lists by code point. -/
def charListLe : List Char → List Char → Bool
  | [], _ => true
  | _ :: _, [] => false
  | a :: as, b :: bs => if a = b then charListLe as bs else decide (a < b)

/-- Python `<=` on strings (lexicographic by code point), the order
`sorted()` uses. -/
def pyStrLe (a b : String) : Bool :=
  charListLe a.data b.data

/-- Insertion into a `pyStrLe`-sorted list. -/
def insertSorted (x : String) : List String → List String
  | [] => [x]
  | y :: ys => if pyStrLe x y then x :: y :: ys else y :: insertSorted x ys

/-- Python `sorted()` on a list of strings. -/
def pySorted (l : List String) : List String :=
  l.foldr insertSorted []

/-- First-occurrence deduplication with an accumulator of already-seen
elements, modelling the key iteration order of `dict` / `Counter` (and one
realizable iteration order of a CPython `set`, whose actual order is
hash-dependent — see the stats model below). -/
def dedupFirstAux [DecidableEq α] (seen : List α) : List α → List α
  | [] => []
  | x :: xs =>
    if x ∈ seen then dedupFirstAux seen xs
    else x :: dedupFirstAux (x :: seen) xs

/-- First-occurrence deduplication. -/
def dedupFirst [DecidableEq α] (l : List α) : List α :=
  dedupFirstAux [] l

namespace Yaml

/-- Python truthiness of a YAML value (`if not frontmatter`, `if not chunk_id`). -/
def truthy : Yaml → Bool
  | .null => false
  | .bool b => b
  | .int n => n ≠ 0
  | .str s => s ≠ ""
  | .list xs => !xs.isEmpty
  | .map kvs => !kvs.isEmpty

/-- Python `==` restricted to hashable scalar values.  In the embedded code
every comparison between YAML values happens after `set.add` has ensured the
operands are hashable scalars (or one side is a literal string), so scalar
equality is the only case exercised; containers compare unequal to scalars,
as in Python. -/
def scalarEq : Yaml → Yaml → Bool
  | .null, .null => true
  | .bool a, .bool b => a == b
  | .int a, .int b => a == b
  | .str a, .str b => a == b
  | _, _ => false

/-- Whether a value is hashable in Python (may be added to a `set` / used as a
`dict` key).  Lists and dicts raise `TypeError`. -/
def hashable : Yaml → Bool
  | .list _ => false
  | .map _ => false
  | _ => true

/-- Key lookup in a parsed YAML mapping.  `yaml.safe_load` produces dicts, so
keys are unique and first-match lookup is exact. -/
def lookup (kvs : List (String × Yaml)) (k : String) : Option Yaml :=
  match kvs with
  | [] => none
  | (k2, v) :: rest => if k2 = k then some v else lookup rest k

/-- Substring test, modelling Python `needle in haystack` for strings. -/
def strContains (haystack needle : String) : Bool :=
  containsList needle.data haystack.data

/-- Python `key in value` for a YAML value: key test on dicts, membership on
lists, substring test on strings; `TypeError` on scalars. -/
def pyIn (k : String) : Yaml → Except PyErr Bool
  | .map kvs => .ok ((lookup kvs k).isSome)
  | .list xs => .ok (xs.any (fun x => scalarEq x (.str k)))
  | .str s => .ok (strContains s k)
  | _ => .error .typeError

/-- Python `value[key]` with a string key: dict lookup; `TypeError` on lists
and strings (string/list indices must be integers) and on scalars.  Only
called after `pyIn` returned true, so the dict lookup always finds the key. -/
def pySubscript (k : String) : Yaml → Except PyErr Yaml
  | .map kvs => .ok ((lookup kvs k).getD .null)
  | _ => .error .typeError

/-- Python `value.get(key, default)`: defaulting lookup on dicts,
`AttributeError` on every other value (no `.get` attribute). -/
def pyGet (v : Yaml) (k : String) (default : Yaml) : Except PyErr Yaml :=
  match v with
  | .map kvs => .ok ((lookup kvs k).getD default)
  | _ => .error .attributeError

/-- Python `for x in value`: the element sequence of a list, the characters of
a string, the keys of a dict; `TypeError` on scalars. -/
def pyIter : Yaml → Except PyErr (List Yaml)
  | .list xs => .ok xs
  | .str s => .ok (s.toList.map (fun c => .str (String.mk [c])))
  | .map kvs => .ok (kvs.map (fun kv => .str kv.1))
  | _ => .error .typeError

end Yaml

/-- One line of the document body: a single well-formed open marker
`<Chunk id="ID">`, a single close marker `</Chunk>`, or a line of plain text
containing no marker. -/
inductive BItem where
  | openTag (id : String)
  | closeTag
  | text (s : String)
deriving DecidableEq, Repr

/-- The literal text of a body line, as the regex-based extractor sees it when
the line falls inside a match's `(.*?)` content group. -/
def renderItem : BItem → String
  | .openTag id => "<Chunk id=\"" ++ id ++ "\">"
  | .closeTag => "</Chunk>"
  | .text s => s

/-- Single left-to-right pass implementing
`re.finditer(r'<Chunk\s+id=["\x27]([^"\x27]+)["\x27]\s*>(.*?)</Chunk>', body, DOTALL)`:
each open marker is paired with the nearest following close marker (the
non-greedy content group swallows any inner open markers as text, accumulated
here in reverse), scanning resumes after the consumed close marker, and an
open marker with no later close marker matches nothing (it is dropped at end
of input — no close marker remains for anything after it either). -/
def extractAux (pending : Option (String × List String)) :
    List BItem → List (String × String)
  | [] => []
  | item :: rest =>
    match pending with
    | some (id, acc) =>
      match item with
      | .closeTag =>
        (id, pyStrip (joinWithChar '\n' acc.reverse)) :: extractAux none rest
      | _ => extractAux (some (id, renderItem item :: acc)) rest
    | none =>
      match item with
      | .openTag id => extractAux (some (id, [])) rest
      | _ => extractAux none rest

/-- The match sequence (id, stripped content) of the extraction regex over the
whole body. -/
def extractMatches (items : List BItem) : List (String × String) :=
  extractAux none items

/-- Lookup in the dict built by `{m.group(1): m.group(2).strip() for m in ...}`:
a later binding for the same key overwrites an earlier one, so lookup returns
the value of the LAST match with the given id. -/
def lookupLast (ps : List (String × String)) (k : String) : Option String :=
  ((ps.filter (fun p => p.1 = k)).getLast?).map (fun p => p.2)

/-- `diagnose_chunks.extract_chunks`, as the id -> content mapping it returns. -/
def extract_chunks (items : List BItem) (k : String) : Option String :=
  lookupLast (extractMatches items) k

/-- `diagnose_chunks.ChunkData` (the canonical chunk record consumed by the
four quality heuristics).  `raw_def` is carried by the script but only read by
`generate_fixes`, which no claim touches, so it is omitted here. -/
structure ChunkData where
  id : String
  context : String
  content : String
  tags : List String
deriving DecidableEq, Repr

/-- Reads a chunk-definition field that the `ChunkData` constructor will feed
to string operations: a non-string value would make the script fail later
(inside `tokenize` / `split`), which this model surfaces at load time. -/
def getStrField (v : Yaml) : Except PyErr String :=
  match v with
  | .str s => .ok s
  | _ => .error .typeError

/-- Same for the elements of a `tags` list, consumed as strings. -/
def getTagsList : List Yaml → Except PyErr (List String)
  | [] => .ok []
  | x :: xs =>
    match getStrField x, getTagsList xs with
    | .ok s, .ok rest => .ok (s :: rest)
    | .error e, _ => .error e
    | .ok _, .error e => .error e

/-- Same for the `tags` field, consumed as a list of strings. -/
def getTagsField (v : Yaml) : Except PyErr (List String) :=
  match v with
  | .list xs => getTagsList xs
  | _ => .error .typeError

/-- The per-entry step of `diagnose_chunks.load_document`'s loop:
`chunk_id = chunk_def.get('id', '')` (an `AttributeError` on a non-dict
entry); falsy ids are skipped; otherwise a `ChunkData` is built with the
body-extracted content (empty when the body has no pair for this id). -/
def loadEntry (bodyGet : String → Option String) (chunk_def : Yaml) :
    Except PyErr (Option ChunkData) :=
  match chunk_def with
  | .map kvs =>
    let idVal := (Yaml.lookup kvs "id").getD (.str "")
    if !idVal.truthy then .ok none
    else
      match getStrField idVal with
      | .error e => .error e
      | .ok id =>
        match getStrField ((Yaml.lookup kvs "context").getD (.str "")) with
        | .error e => .error e
        | .ok ctx =>
          match getTagsField ((Yaml.lookup kvs "tags").getD (.list [])) with
          | .error e => .error e
          | .ok tags =>
            .ok (some { id := id, context := ctx,
                        content := (bodyGet id).getD "", tags := tags })
  | _ => .error .attributeError

/-- One `chunks.append(...)`-or-`continue` step of the loader loop, threading
the accumulated list through the `Except` monad. -/
def loadStep (bodyGet : String → Option String)
    (acc : Except PyErr (List ChunkData)) (e : Yaml) :
    Except PyErr (List ChunkData) :=
  match acc with
  | .error err => .error err
  | .ok l =>
    match loadEntry bodyGet e with
    | .error err => .error err
    | .ok (some c) => .ok (l ++ [c])
    | .ok none => .ok l

/-- `diagnose_chunks.load_document`, after file reading and frontmatter
parsing: `fm` is the parsed frontmatter (`none` when absent or unparsable) and
`body` the remaining body text.  Returns the canonical chunk list. -/
def load_chunks (fm : Option Yaml) (body : List BItem) :
    Except PyErr (List ChunkData) :=
  match fm with
  | none => .ok []
  | some y =>
    if !y.truthy then .ok []
    else
      match Yaml.pyIn "chunks" y with
      | .error e => .error e
      | .ok hasChunks =>
        if !hasChunks then .ok []
        else
          match Yaml.pySubscript "chunks" y with
          | .error e => .error e
          | .ok chunksVal =>
            match chunksVal.pyIter with
            | .error e => .error e
            | .ok entries => entries.foldl (loadStep (extract_chunks body)) (.ok [])

/-- Maximal run of Python word characters (`\w` = letters, digits, underscore,
restricted to ASCII as used by the documents): accumulates the current run
(reversed) and cuts at each non-word character. -/
def isWordChar (c : Char) : Bool :=
  c.isAlpha || c.isDigit || c == '_'

/-- Splits a character list into its maximal word-character runs. -/
def wordRunsAux (cur : List Char) : List Char → List (List Char)
  | [] => if cur.isEmpty then [] else [cur.reverse]
  | c :: cs =>
    if isWordChar c then
      wordRunsAux (c :: cur) cs
    else if cur.isEmpty then
      wordRunsAux [] cs
    else
      cur.reverse :: wordRunsAux [] cs

/-- `diagnose_chunks.tokenize`: `re.findall(r'\b[a-zA-Z]{3,}\b', text.lower())`.
A maximal word-character run matches exactly when it is entirely alphabetic
and at least 3 characters long (a digit or underscore adjacent to a letter
block removes the word boundary the pattern requires). -/
def tokenize (s : String) : List String :=
  (wordRunsAux [] (pyLower s).data).filterMap
    (fun r => if r.length ≥ 3 && r.all Char.isAlpha then some (String.mk r) else none)

/-- `set(tokenize(text))`: a Python set modelled as a duplicate-free list in
first-occurrence order. -/
def tokSet (s : String) : List String :=
  dedupFirst (tokenize s)

/-- `diagnose_chunks.jaccard_similarity` over sets modelled as duplicate-free
lists (floats modelled as exact rationals: every value arising here is a
ratio of small integers, represented exactly by a Python float comparison
against these literals). -/
def jaccard_similarity (set1 set2 : List String) : ℚ :=
  if set1.isEmpty || set2.isEmpty then 0
  else
    let inter := (set1.filter (fun t => set2.contains t)).length
    let union := (dedupFirst (set1 ++ set2)).length
    if union > 0 then (inter : ℚ) / (union : ℚ) else 0

/-- Structured issue payloads standing in for the f-string messages of
`diagnose_chunks.Issue.message` (each constructor corresponds to one message
template and carries the values interpolated into it). -/
inductive DKind where
  | similar (similarity : ℚ) (shared : List String)
  | emptyContext
  | tooShort (words : Nat)
  | tooVerbose (words : Nat)
  | repeatsOpening
  | ubiquitousTags (tags : List String)
  | identicalTags (tags : List String)
  | badIdFormat
  | uncommonCats (cats : List String)
  | noValidChunks
deriving DecidableEq, Repr

/-- `diagnose_chunks.Issue`.  `suggestion` strings carry no claim-relevant
data and are omitted; `fix` is the optional `{'context': ...}` patch emitted
for empty contexts, modelled as the patch's context string. -/
structure DIssue where
  category : String
  severity : Sev
  chunk_ids : List String
  kind : DKind
  fix : Option String
deriving DecidableEq, Repr

/-- `diagnose_chunks.check_semantic_similarity`: every unordered pair (in the
nested-loop order of the script), flagged at Jaccard similarity `>= 0.6` over
the token sets of `context + ' ' + content`, as a warning listing up to 10
shared tokens in sorted order. -/
def check_semantic_similarity : List ChunkData → List DIssue
  | [] => []
  | a :: rest =>
    (rest.filterMap (fun b =>
      let ta := tokSet (a.context ++ " " ++ a.content)
      let tb := tokSet (b.context ++ " " ++ b.content)
      let s := jaccard_similarity ta tb
      if s ≥ 3/5 then
        some { category := "semantic_similarity", severity := .warning,
               chunk_ids := [a.id, b.id],
               kind := .similar s ((pySorted (ta.filter (fun t => tb.contains t))).take 10),
               fix := none }
      else none))
    ++ check_semantic_similarity rest

/-- The issues `diagnose_chunks.check_context_quality` emits for one chunk:
0 context words is an error (with a fix patch) and skips the other checks;
otherwise fewer than 8 words warns, more than 50 words is info, and — when
the content is non-empty and both token sets are non-empty — Jaccard overlap
above 0.7 between the context tokens and the tokens of the first 15 content
words warns that the context repeats the opening. -/
def contextIssuesFor (c : ChunkData) : List DIssue :=
  let wc := (pySplit c.context).length
  if wc = 0 then
    [{ category := "context_quality", severity := .error, chunk_ids := [c.id],
       kind := .emptyContext,
       fix := some ("[TODO: Describe the purpose and unique aspects of " ++ c.id ++ "]") }]
  else
    (if wc < 8 then
      [{ category := "context_quality", severity := .warning, chunk_ids := [c.id],
         kind := .tooShort wc, fix := none }]
     else []) ++
    (if wc > 50 then
      [{ category := "context_quality", severity := .info, chunk_ids := [c.id],
         kind := .tooVerbose wc, fix := none }]
     else []) ++
    (if c.content ≠ "" then
      let contextTokens := tokSet (pyLower c.context)
      let contentOpener := pyLower (joinWithChar ' ' ((pySplit c.content).take 15))
      let contentTokens := tokSet contentOpener
      if !contextTokens.isEmpty && !contentTokens.isEmpty then
        if jaccard_similarity contextTokens contentTokens > 7/10 then
          [{ category := "context_quality", severity := .warning, chunk_ids := [c.id],
             kind := .repeatsOpening, fix := none }]
        else []
      else []
     else [])

/-- `diagnose_chunks.check_context_quality`. -/
def check_context_quality (chunks : List ChunkData) : List DIssue :=
  chunks.flatMap contextIssuesFor

/-- `frozenset` equality on sets modelled as duplicate-free lists. -/
def listSetEq (a b : List String) : Bool :=
  a.all (fun x => b.contains x) && b.all (fun x => a.contains x)

/-- Appends a chunk id to its tag-set group, creating the group at the end
when the tag set is new: the insertion-order grouping of
`tag_set_to_chunks.setdefault(frozenset(tags), []).append(chunk_id)`. -/
def addToGroup (k : List String) (id : String) :
    List (List String × List String) → List (List String × List String)
  | [] => [(k, [id])]
  | (k2, ids) :: rest =>
    if listSetEq k k2 then (k2, ids ++ [id]) :: rest
    else (k2, ids) :: addToGroup k id rest

/-- `diagnose_chunks.check_tag_overlap`: with fewer than 2 chunks nothing is
reported; a tag is counted once per chunk carrying it; when more than one tag
reaches 80% of the chunks a single document-level info issue lists them; each
group of 2+ chunks with the same non-empty tag set yields a warning. -/
def check_tag_overlap (chunks : List ChunkData) : List DIssue :=
  if chunks.length < 2 then []
  else
    let tagKeys := dedupFirst (chunks.flatMap (fun c => dedupFirst c.tags))
    let count := fun t => chunks.countP (fun c => c.tags.contains t)
    let ubiquitous := tagKeys.filter (fun t => ((count t : ℚ) ≥ (chunks.length : ℚ) * (4/5)))
    (if ubiquitous.length > 1 then
      [{ category := "tag_overlap", severity := .info, chunk_ids := chunks.map (fun c => c.id),
         kind := .ubiquitousTags ubiquitous, fix := none }]
     else []) ++
    ((chunks.foldl (fun acc c => addToGroup (dedupFirst c.tags) c.id acc) []).filterMap
      (fun g =>
        if g.2.length > 1 ∧ g.1 ≠ [] then
          some { category := "tag_overlap", severity := .warning, chunk_ids := g.2,
                 kind := .identicalTags (pySorted g.1), fix := none }
        else none))

/-- Lowercase ASCII letter, the regex class `[a-z]`. -/
def isLowerAZ (c : Char) : Bool :=
  'a' ≤ c && c ≤ 'z'

/-- ASCII digit, the regex class `[0-9]`. -/
def isDigit09 (c : Char) : Bool :=
  '0' ≤ c && c ≤ '9'

/-- The id grammar `^[a-z]+:[a-z0-9-]+$` (neither character class matches a
colon, so a well-formed id has exactly one colon). -/
def idOk (s : String) : Bool :=
  match splitOnChar ':' s with
  | [c, t] =>
    c ≠ "" && c.data.all isLowerAZ &&
    t ≠ "" && t.data.all (fun ch => isLowerAZ ch || isDigit09 ch || ch == '-')
  | _ => false

/-- `chunk.id.split(':')[0]`. -/
def catOf (s : String) : String :=
  (splitOnChar ':' s).headD ""

/-- `diagnose_chunks.check_id_naming`: each nonconforming id warns; category
prefixes of conforming ids are tallied (Counter order = first occurrence),
and when several categories exist and a proper nonempty subset of them are
singletons, one info issue names the chunks in singleton categories. -/
def check_id_naming (chunks : List ChunkData) : List DIssue :=
  let formatIssues := chunks.filterMap (fun c =>
    if !idOk c.id then
      some { category := "id_naming", severity := .warning, chunk_ids := [c.id],
             kind := DKind.badIdFormat, fix := none }
    else none)
  let cats := (chunks.filter (fun c => idOk c.id)).map (fun c => catOf c.id)
  let catKeys := dedupFirst cats
  let singletons := catKeys.filter (fun k => cats.count k = 1)
  formatIssues ++
  (if catKeys.length > 1 ∧ singletons ≠ [] ∧ singletons.length < catKeys.length then
    [{ category := "id_naming", severity := .info,
       chunk_ids := (chunks.filter (fun c => catOf c.id ∈ singletons)).map (fun c => c.id),
       kind := .uncommonCats singletons, fix := none }]
   else [])

/-- The `stats` dict of `diagnose_chunks.run_diagnostics`.  `categories` is
`list(set(...))`: a duplicate-free list whose order CPython derives from
string hashes; this model fixes first-occurrence order as one realizable
iteration order (the code applies no sort either way). -/
structure DStats where
  chunk_count : Nat
  avg_context_words : ℚ
  unique_tags : Nat
  categories : List String
  errors : Nat
  warnings : Nat
  infos : Nat
deriving DecidableEq, Repr

/-- `diagnose_chunks.DiagnosticReport` (minus the filepath). -/
structure DReport where
  issues : List DIssue
  stats : DStats
deriving DecidableEq, Repr

/-- `diagnose_chunks.run_diagnostics` after `load_document`: an empty chunk
list short-circuits to a single structural error with zeroed stats; otherwise
the four checks run in fixed order and the stats are computed over the chunk
list. -/
def run_diagnostics (chunks : List ChunkData) : DReport :=
  if chunks.isEmpty then
    { issues := [{ category := "structure", severity := .error, chunk_ids := [],
                   kind := .noValidChunks, fix := none }],
      stats := { chunk_count := 0, avg_context_words := 0, unique_tags := 0,
                 categories := [], errors := 1, warnings := 0, infos := 0 } }
  else
    let issues :=
      check_semantic_similarity chunks ++ check_context_quality chunks ++
      check_tag_overlap chunks ++ check_id_naming chunks
    { issues := issues,
      stats := {
        chunk_count := chunks.length,
        avg_context_words :=
          ((chunks.map (fun c => ((pySplit c.context).length : ℚ))).sum) / (chunks.length : ℚ),
        unique_tags := (dedupFirst (chunks.flatMap (fun c => c.tags))).length,
        categories :=
          dedupFirst ((chunks.filter (fun c => c.id.data.contains ':')).map (fun c => catOf c.id)),
        errors := issues.countP (fun i => i.severity = .error),
        warnings := issues.countP (fun i => i.severity = .warning),
        infos := issues.countP (fun i => i.severity = .info) } }

/-- Gregorian leap year. -/
def leapYear (y : Nat) : Bool :=
  (y % 4 == 0 && y % 100 != 0) || y % 400 == 0

/-- Days in a month of the Gregorian calendar. -/
def daysInMonth (y m : Nat) : Nat :=
  if m = 2 then (if leapYear y then 29 else 28)
  else if m = 4 ∨ m = 6 ∨ m = 9 ∨ m = 11 then 30
  else 31

/-- Acceptance of `datetime.fromisoformat` on the `YYYY-MM-DD` date strings
the documents use (the full ISO-8601 datetime grammar the function also
accepts is not exercised by any claim): four digit year at least 1, two digit
month 01-12, two digit day within the month. -/
def isoDateOk (s : String) : Bool :=
  match splitOnChar '-' s with
  | [y, m, d] =>
    y.data.length = 4 && y.data.all isDigit09 &&
    m.data.length = 2 && m.data.all isDigit09 &&
    d.data.length = 2 && d.data.all isDigit09 &&
    (let yn := digitsToNat y.data
     let mn := digitsToNat m.data
     let dn := digitsToNat d.data
     1 ≤ yn && 1 ≤ mn && mn ≤ 12 && 1 ≤ dn && dn ≤ daysInMonth yn mn)
  | _ => false

/-- Structured counterparts of the `validate_chunks.ValidationError` message
templates (one constructor per f-string, carrying the interpolated values). -/
inductive VKind where
  | missingId (idx : Nat)
  | dupFm (id : Yaml)
  | missingContext (id : Yaml)
  | badCreatedAt (id : Yaml)
  | badVersion (id : Yaml)
  | badPriority (id : Yaml)
  | depsNotList (id : Yaml)
  | depNotString (id : Yaml)
  | depNotFound (id : Yaml) (dep : String)
  | badType (id : Yaml)
  | pathMissing (id : Yaml) (p : String)
  | pathMisuse (id : Yaml)
  | noFrontmatter
  | noChunksKey
  | notInFm (id : String)
  | dupBody (id : String) (firstLine : Nat)
  | nested (inner : String) (outer : String) (outerLine : Nat)
  | unmatchedClose
  | unclosed (id : String)
  | badIdShape (id : String)
  | fmNotInBody (id : Yaml)

/-- `validate_chunks.ValidationError`. -/
structure VError where
  line : Nat
  kind : VKind
  severity : Sev

/-- `validate_chunks.validate_temporal_fields`: an unparsable (or non-string;
`fromisoformat` raising `TypeError` is caught too) `created_at` is an error;
`version` must be a Python `int` at least 1 (a YAML bool is a Python `int`
subclass: `True` passes, `False` fails the `>= 1` test). -/
def validate_temporal_fields (chunk_def : List (String × Yaml)) (chunk_id : Yaml)
    (line_num : Nat) : List VError :=
  (match Yaml.lookup chunk_def "created_at" with
   | some (.str s) => if isoDateOk s then [] else [⟨line_num, .badCreatedAt chunk_id, .error⟩]
   | some _ => [⟨line_num, .badCreatedAt chunk_id, .error⟩]
   | none => []) ++
  (match Yaml.lookup chunk_def "version" with
   | some (.int n) => if n < 1 then [⟨line_num, .badVersion chunk_id, .error⟩] else []
   | some (.bool b) => if b then [] else [⟨line_num, .badVersion chunk_id, .error⟩]
   | some _ => [⟨line_num, .badVersion chunk_id, .error⟩]
   | none => [])

/-- `validate_chunks.validate_agentic_fields`: `priority` outside
{high, medium, low} is an error; a non-list `dependencies` is an error; a
non-string entry of the list is an error; a string entry that is neither in
`all_chunk_ids` nor equal to the entry id itself is a warning. -/
def validate_agentic_fields (chunk_def : List (String × Yaml)) (chunk_id : Yaml)
    (line_num : Nat) (all_chunk_ids : List Yaml) : List VError :=
  (match Yaml.lookup chunk_def "priority" with
   | some v =>
     if Yaml.scalarEq v (.str "high") || Yaml.scalarEq v (.str "medium") ||
        Yaml.scalarEq v (.str "low") then []
     else [⟨line_num, .badPriority chunk_id, .error⟩]
   | none => []) ++
  (match Yaml.lookup chunk_def "dependencies" with
   | some (.list deps) =>
     deps.flatMap (fun dep =>
       match dep with
       | .str s =>
         if !(all_chunk_ids.any (fun x => Yaml.scalarEq x (.str s))) &&
            !(Yaml.scalarEq dep chunk_id) then
           [⟨line_num, .depNotFound chunk_id s, .warning⟩]
         else []
       | _ => [⟨line_num, .depNotString chunk_id, .error⟩])
   | some _ => [⟨line_num, .depsNotList chunk_id, .error⟩]
   | none => [])

/-- Whether a YAML value equals one of the media type strings. -/
def isMediaType (v : Option Yaml) : Bool :=
  match v with
  | some w =>
    Yaml.scalarEq w (.str "image") || Yaml.scalarEq w (.str "video") ||
    Yaml.scalarEq w (.str "audio")
  | none => false

/-- `validate_chunks.validate_multimodal_fields`: `type` outside
{text, image, video, audio} is an error; `content_path` with a media `type`
has its existence checked (a missing file is a warning) — `doc_dir / path`
raises `TypeError` when the path value is not a string — and `content_path`
with a non-media (or absent) `type` is a misuse warning.  `pathExists` stands
for the file-system lookup `(doc_dir / path_str).exists()`. -/
def validate_multimodal_fields (chunk_def : List (String × Yaml)) (chunk_id : Yaml)
    (line_num : Nat) (pathExists : String → Bool) : Except PyErr (List VError) :=
  let typeErrs :=
    match Yaml.lookup chunk_def "type" with
    | some v =>
      if Yaml.scalarEq v (.str "text") || Yaml.scalarEq v (.str "image") ||
         Yaml.scalarEq v (.str "video") || Yaml.scalarEq v (.str "audio") then []
      else [⟨line_num, .badType chunk_id, .error⟩]
    | none => []
  match Yaml.lookup chunk_def "content_path" with
  | none => .ok typeErrs
  | some pv =>
    if isMediaType (Yaml.lookup chunk_def "type") then
      match pv with
      | .str p =>
        if !pathExists p then
          .ok (typeErrs ++ [⟨line_num, .pathMissing chunk_id p, .warning⟩])
        else
          .ok typeErrs
      | _ => .error .typeError
    else
      .ok (typeErrs ++ [⟨line_num, .pathMisuse chunk_id, .warning⟩])

/-- The accumulated header-processing state of `validate_chunks.validate_file`
(lines 162-221): the error list, the `fm_chunks` dict (insertion-ordered,
first definition wins) and the `all_chunk_ids` set (a duplicate-free list). -/
structure HeaderSt where
  errs : List VError
  fm_chunks : List (Yaml × Yaml)
  all_ids : List Yaml

/-- Key membership in the `fm_chunks` dict (Python `==` on the scalar keys). -/
def keyMem (k : Yaml) (kvs : List (Yaml × Yaml)) : Bool :=
  kvs.any (fun kv => Yaml.scalarEq kv.1 k)

/-- First-match lookup in the `fm_chunks` dict. -/
def fmLookup (k : Yaml) : List (Yaml × Yaml) → Option Yaml
  | [] => none
  | (k2, v) :: rest => if Yaml.scalarEq k2 k then some v else fmLookup k rest

/-- Python `set.add`: `TypeError` on unhashable values, otherwise idempotent
insertion. -/
def setAdd (x : Yaml) (s : List Yaml) : Except PyErr (List Yaml) :=
  if x.hashable then
    .ok (if s.any (fun y => Yaml.scalarEq y x) then s else s ++ [x])
  else
    .error .typeError

/-- One iteration of the `for i, chunk_def in enumerate(frontmatter['chunks'])`
loop of `validate_chunks.validate_file`: a definition without `id` is an
error and is skipped entirely; otherwise the id is added to `all_chunk_ids`
(before any validation — so the set the agentic validator sees holds exactly
the ids declared up to and including this entry), a repeated id is an error
while a fresh id stores its definition in `fm_chunks`, a missing `context` is
a warning, and the three field-group validators run. -/
def headerEntryStep (pathExists : String → Bool) (st : HeaderSt) (i : Nat)
    (chunk_def : Yaml) : Except PyErr HeaderSt :=
  match Yaml.pyIn "id" chunk_def with
  | .error e => .error e
  | .ok hasId =>
    if !hasId then
      .ok { st with errs := st.errs ++ [⟨i + 2, .missingId i, .error⟩] }
    else
      match chunk_def with
      | .map kvs =>
        let chunk_id := (Yaml.lookup kvs "id").getD .null
        match setAdd chunk_id st.all_ids with
        | .error e => .error e
        | .ok all_ids =>
          let line := i + 2
          let dupErrs :=
            if keyMem chunk_id st.fm_chunks then [⟨line, VKind.dupFm chunk_id, Sev.error⟩]
            else []
          let fm' :=
            if keyMem chunk_id st.fm_chunks then st.fm_chunks
            else st.fm_chunks ++ [(chunk_id, chunk_def)]
          let ctxErrs :=
            if (Yaml.lookup kvs "context").isNone then
              [⟨line, VKind.missingContext chunk_id, Sev.warning⟩]
            else []
          let tempErrs := validate_temporal_fields kvs chunk_id line
          let agErrs := validate_agentic_fields kvs chunk_id line all_ids
          match validate_multimodal_fields kvs chunk_id line pathExists with
          | .error e => .error e
          | .ok mmErrs =>
            .ok { errs := st.errs ++ dupErrs ++ ctxErrs ++ tempErrs ++ agErrs ++ mmErrs,
                  fm_chunks := fm', all_ids := all_ids }
      | _ =>
        -- `chunk_def['id']` on a value that passed the substring test but is not a dict
        .error .typeError

/-- The whole `enumerate(frontmatter['chunks'])` loop. -/
def headerFold (pathExists : String → Bool) :
    List Yaml → Nat → HeaderSt → Except PyErr HeaderSt
  | [], _, st => .ok st
  | e :: rest, i, st =>
    match headerEntryStep pathExists st i e with
    | .error err => .error err
    | .ok st1 => headerFold pathExists rest (i + 1) st1

/-- The header half of `validate_chunks.validate_file` (lines 168-221),
including the `if frontmatter and 'chunks' in frontmatter / elif ... is None /
elif 'chunks' not in frontmatter` chain.  `fm = none` models both an absent
or unparsable frontmatter block and `yaml.safe_load` returning `None`;
`some .null` is kept equivalent to it for faithfulness of the `is None` test. -/
def processHeader (fm : Option Yaml) (pathExists : String → Bool) :
    Except PyErr HeaderSt :=
  match fm with
  | none => .ok ⟨[⟨1, .noFrontmatter, .warning⟩], [], []⟩
  | some y =>
    match (if y.truthy then Yaml.pyIn "chunks" y else .ok false) with
    | .error e => .error e
    | .ok cond1 =>
      if cond1 then
        match Yaml.pySubscript "chunks" y with
        | .error e => .error e
        | .ok cv =>
          match cv.pyIter with
          | .error e => .error e
          | .ok entries => headerFold pathExists entries 0 ⟨[], [], []⟩
      else
        match y with
        | .null => .ok ⟨[⟨1, .noFrontmatter, .warning⟩], [], []⟩
        | _ =>
          match Yaml.pyIn "chunks" y with
          | .error e => .error e
          | .ok has =>
            if has then .ok ⟨[], [], []⟩
            else .ok ⟨[⟨1, .noChunksKey, .warning⟩], [], []⟩

/-- The body-scanning state of `validate_chunks.validate_file` (lines
223-281): accumulated errors, the `body_chunk_ids` dict (id of every open
marker, first line wins) and the `open_chunks` stack (head = most recently
opened, the end of the Python list). -/
structure ScanSt where
  errs : List VError
  bodyIds : List (String × Nat)
  stack : List (String × Nat)

/-- First-match lookup in `body_chunk_ids`. -/
def bodyLookup (k : String) : List (String × Nat) → Option Nat
  | [] => none
  | (k2, v) :: rest => if k2 = k then some v else bodyLookup k rest

/-- One line of the body scan.  An open marker: error when a non-empty
`fm_chunks` lacks the id, duplicate error citing the first line when the id
was already opened (otherwise the line is recorded), nesting error citing the
innermost open marker when the stack is non-empty, push, and a format warning
for ids outside the `category:topic-name` grammar.  A close marker: error on
an empty stack, otherwise a pop.  Plain text: no transition. -/
def scanLine (fm : List (Yaml × Yaml)) (line : Nat) (st : ScanSt) : BItem → ScanSt
  | .text _ => st
  | .openTag id =>
    let e1 :=
      if !fm.isEmpty && !keyMem (.str id) fm then
        [⟨line, VKind.notInFm id, Sev.error⟩]
      else []
    let dup := bodyLookup id st.bodyIds
    let e2 := match dup with
      | some l0 => [⟨line, VKind.dupBody id l0, Sev.error⟩]
      | none => []
    let bodyIds := match dup with
      | some _ => st.bodyIds
      | none => st.bodyIds ++ [(id, line)]
    let e3 := match st.stack with
      | (outer, ol) :: _ => [⟨line, VKind.nested id outer ol, Sev.error⟩]
      | [] => []
    let e4 := if !idOk id then [⟨line, VKind.badIdShape id, Sev.warning⟩] else []
    ⟨st.errs ++ e1 ++ e2 ++ e3 ++ e4, bodyIds, (id, line) :: st.stack⟩
  | .closeTag =>
    match st.stack with
    | [] => { st with errs := st.errs ++ [⟨line, VKind.unmatchedClose, Sev.error⟩] }
    | _ :: rest => { st with stack := rest }

/-- The `for i, line in enumerate(lines, fm_end_line + 1)` loop. -/
def scanLines (fm : List (Yaml × Yaml)) :
    List BItem → Nat → ScanSt → ScanSt
  | [], _, st => st
  | item :: rest, line, st => scanLines fm rest (line + 1) (scanLine fm line st item)

/-- The body half of `validate_chunks.validate_file` (lines 223-299): the
line scan starting at `fm_end_line + 1`, then one unclosed-marker error per
entry left on the stack (in Python list order: outermost first), then one
warning per `fm_chunks` id that no open marker used (dict insertion order,
line 1). -/
def scanBody (fm : List (Yaml × Yaml)) (fmEnd : Nat) (items : List BItem) : ScanSt :=
  let st := scanLines fm items (fmEnd + 1) ⟨[], [], []⟩
  let unclosedErrs :=
    st.stack.reverse.map (fun p => (⟨p.2, VKind.unclosed p.1, Sev.error⟩ : VError))
  let fmWarns := fm.filterMap (fun kv =>
    if st.bodyIds.any (fun b => Yaml.scalarEq kv.1 (.str b.1)) then none
    else some (⟨1, VKind.fmNotInBody kv.1, Sev.warning⟩ : VError))
  { st with errs := st.errs ++ unclosedErrs ++ fmWarns }

/-- `validate_chunks.validate_file` after file reading and frontmatter
splitting: header processing followed by the body scan, all errors in
discovery order. -/
def validate_file (fm : Option Yaml) (body : List BItem) (fmEnd : Nat)
    (pathExists : String → Bool) : Except PyErr (List VError) :=
  match processHeader fm pathExists with
  | .error e => .error e
  | .ok h => .ok (h.errs ++ (scanBody h.fm_chunks fmEnd body).errs)

/-! Derived predicates, projections and concrete documents used by the
claim theorems. -/

/-- A chunk-definition entry whose field values have the shapes
`diagnose_chunks.load_document` turns into a `ChunkData` without failing:
a mapping whose `id` / `context` values are strings when present and whose
`tags` value is a list of strings when present. -/
def goodEntryD (e : Yaml) : Bool :=
  match e with
  | .map kvs =>
    (match Yaml.lookup kvs "id" with
     | none => true
     | some (.str _) => true
     | some _ => false) &&
    (match Yaml.lookup kvs "context" with
     | none => true
     | some (.str _) => true
     | some _ => false) &&
    (match Yaml.lookup kvs "tags" with
     | none => true
     | some (.list xs) => xs.all (fun x => match x with | .str _ => true | _ => false)
     | some _ => false)
  | _ => false

/-- A chunk-definition entry `validate_chunks.validate_file` processes without
raising: a mapping whose `id` value (when present) is hashable and whose
`content_path` value (when present) is a string. -/
def goodEntryV (e : Yaml) : Bool :=
  match e with
  | .map kvs =>
    (match Yaml.lookup kvs "id" with
     | none => true
     | some v => v.hashable) &&
    (match Yaml.lookup kvs "content_path" with
     | none => true
     | some (.str _) => true
     | some _ => false)
  | _ => false

/-- Frontmatter shapes over which the validator runs to completion: absent,
`None`, or a mapping whose `chunks` value (when present) is a list of
`goodEntryV` entries. -/
def wellShapedV : Option Yaml → Bool
  | none => true
  | some .null => true
  | some (.bool _) => false
  | some (.int _) => false
  | some (.str _) => false
  | some (.list _) => false
  | some (.map kvs) =>
    match Yaml.lookup kvs "chunks" with
    | none => true
    | some (.list es) => es.all goodEntryV
    | some _ => false

/-- Frontmatter shapes over which the diagnostics loader runs to completion:
absent, `None`, or a mapping whose `chunks` value (when present) is a list of
`goodEntryD` entries. -/
def wellShapedD : Option Yaml → Bool
  | none => true
  | some .null => true
  | some (.bool _) => false
  | some (.int _) => false
  | some (.str _) => false
  | some (.list _) => false
  | some (.map kvs) =>
    match Yaml.lookup kvs "chunks" with
    | none => true
    | some (.list es) => es.all goodEntryD
    | some _ => false

/-- The `ChunkData` record a `goodEntryD` header entry contributes to the
canonical chunk set (`none` for a skipped entry): the straight-line result of
one loop iteration of `diagnose_chunks.load_document`, used to state what the
loader fold computes. -/
def entryRecord (bodyGet : String → Option String) (e : Yaml) : Option ChunkData :=
  match e with
  | .map kvs =>
    match Yaml.lookup kvs "id" with
    | some (.str s) =>
      if s = "" then none
      else
        some { id := s,
               context :=
                 (match Yaml.lookup kvs "context" with
                  | some (.str c) => c
                  | _ => ""),
               content := (bodyGet s).getD "",
               tags :=
                 (match Yaml.lookup kvs "tags" with
                  | some (.list xs) =>
                    xs.filterMap (fun x => match x with | .str t => some t | _ => none)
                  | _ => []) }
    | _ => none
  | _ => none

/-- The id value a header entry declares (the `id` key of a mapping). -/
def entryIdOf (e : Yaml) : Option Yaml :=
  match e with
  | .map kvs => Yaml.lookup kvs "id"
  | _ => none

/-- The ids that survive into the diagnostics canonical chunk set: declared
string ids that are non-empty (truthy), in header order. -/
def headerIdsD (entries : List Yaml) : List String :=
  entries.filterMap (fun e =>
    match entryIdOf e with
    | some (.str s) => if s ≠ "" then some s else none
    | _ => none)

/-- How many header entries declare the id `x`. -/
def occOf (x : String) (entries : List Yaml) : Nat :=
  entries.countP (fun e =>
    match entryIdOf e with
    | some v => Yaml.scalarEq v (.str x)
    | none => false)

/-- The first header entry declaring the id `x`. -/
def firstDefWithId (x : String) (entries : List Yaml) : Option Yaml :=
  entries.find? (fun e =>
    match entryIdOf e with
    | some v => Yaml.scalarEq v (.str x)
    | none => false)

/-- A single-key frontmatter mapping carrying the given chunk list. -/
def mkFm (entries : List Yaml) : Option Yaml :=
  some (.map [("chunks", .list entries)])

/-- The state a successful `processHeader` run produced (the empty state for
a raising run; the claim theorems pair this with an `isOk` fact or a closed
equation whenever the distinction matters). -/
def headerStOf (r : Except PyErr HeaderSt) : HeaderSt :=
  match r with
  | .ok st => st
  | .error _ => ⟨[], [], []⟩

/-- The chunk list a successful `load_chunks` run produced. -/
def loadedOf (r : Except PyErr (List ChunkData)) : List ChunkData :=
  match r with
  | .ok l => l
  | .error _ => []

/-- Recognizers for the validator error kinds the claims count. -/
def isDepNotFound (e : VError) : Bool :=
  match e.kind with | .depNotFound _ _ => true | _ => false

def isDepNotString (e : VError) : Bool :=
  match e.kind with | .depNotString _ => true | _ => false

def isDepsNotList (e : VError) : Bool :=
  match e.kind with | .depsNotList _ => true | _ => false

def isMissingId (e : VError) : Bool :=
  match e.kind with | .missingId _ => true | _ => false

def isDupFmFor (x : String) (e : VError) : Bool :=
  match e.kind with | .dupFm v => Yaml.scalarEq v (.str x) | _ => false

def isNested (e : VError) : Bool :=
  match e.kind with | .nested _ _ _ => true | _ => false

def isDupBody (e : VError) : Bool :=
  match e.kind with | .dupBody _ _ => true | _ => false

/-- C1 input: one header chunk `a:x`, one well-formed closed body pair whose
id `b:y` is not declared in the header. -/
def entriesC1 : List Yaml :=
  [.map [("id", .str "a:x"), ("context", .str "c")]]

def docC1fm : Option Yaml :=
  mkFm entriesC1

def docC1body : List BItem :=
  [.openTag "b:y", .text "c", .closeTag]

/-- The issue the diagnostics emit for `chunkC3` (an error from a quality
heuristic, contradicting the never-error claim). -/
def issueC3 : DIssue :=
  { category := "context_quality", severity := .error, chunk_ids := ["a:b"],
    kind := .emptyContext,
    fix := some "[TODO: Describe the purpose and unique aspects of a:b]" }

/-- C2 input: the same id in two well-formed closed pairs with different
contents. -/
def docC2body : List BItem :=
  [.openTag "a:b", .text "A", .closeTag, .openTag "a:b", .text "B", .closeTag]

/-- C3 input: a chunk whose context is empty but whose content is not. -/
def chunkC3 : ChunkData :=
  { id := "a:b", context := "", content := "hello", tags := [] }

/-- C4 input: frontmatter whose `chunks` value is a scalar. -/
def docC4fm : Option Yaml :=
  some (.map [("chunks", .int 5)])

/-- C5 input: the first entry depends on an id only declared by the second
entry. -/
def docC5fm : Option Yaml :=
  some (.map [("chunks", .list
    [.map [("id", .str "a:a"), ("context", .str "c"),
           ("dependencies", .list [.str "b:b"])],
     .map [("id", .str "b:b"), ("context", .str "c")]])])

/-- C6 input: the same id declared by two header entries. -/
def docC6entries : List Yaml :=
  [.map [("id", .str "a:x"), ("context", .str "c")],
   .map [("id", .str "a:x"), ("context", .str "c")]]

/-- C7 input: a header declaring only `h:x`, a body opening only `b:y`. -/
def docC7fm : List (Yaml × Yaml) :=
  [(.str "h:x", .map [("id", .str "h:x")])]

def docC7body : List BItem :=
  [.openTag "b:y", .closeTag]

/-- C8 input: the spec scenario, a pair nested directly inside another. -/
def docC8body : List BItem :=
  [.openTag "a:a", .text "x", .openTag "b:b", .text "y", .closeTag,
   .text "z", .closeTag]

/-- C9 input: chunks whose category prefixes first occur in non-sorted
order. -/
def chunksC9 : List ChunkData :=
  [{ id := "b:x", context := "w", content := "", tags := [] },
   { id := "a:y", context := "w", content := "", tags := [] }]

/-- C10 inputs: an entry declaring the empty string as id, and its
counterpart without any id key. -/
def entryRestC10 : List (String × Yaml) :=
  [("context", .str "c")]

theorem dedupFirstAux_mem [DecidableEq α] (seen l : List α) (x : α) :
    x ∈ dedupFirstAux seen l ↔ x ∈ l ∧ x ∉ seen := by
  induction l generalizing seen with
  | nil => simp [dedupFirstAux]
  | cons y ys ih =>
    by_cases hy : y ∈ seen
    · rw [dedupFirstAux, if_pos hy, ih]
      constructor
      · rintro ⟨h1, h2⟩
        exact ⟨List.mem_cons_of_mem _ h1, h2⟩
      · rintro ⟨h1, h2⟩
        rcases List.mem_cons.mp h1 with rfl | h1
        · exact absurd hy h2
        · exact ⟨h1, h2⟩
    · rw [dedupFirstAux, if_neg hy]
      constructor
      · intro h
        rcases List.mem_cons.mp h with rfl | h
        · exact ⟨List.mem_cons_self _ _, hy⟩
        · rw [ih] at h
          refine ⟨List.mem_cons_of_mem _ h.1, ?_⟩
          intro hx
          exact h.2 (List.mem_cons_of_mem _ hx)
      · rintro ⟨h1, h2⟩
        rcases List.mem_cons.mp h1 with rfl | h1
        · exact List.mem_cons_self _ _
        · by_cases hxy : x = y
          · subst hxy; exact List.mem_cons_self _ _
          · refine List.mem_cons_of_mem _ ?_
            rw [ih]
            exact ⟨h1, by simp [List.mem_cons, hxy, h2]⟩

theorem dedupFirstAux_nodup [DecidableEq α] (seen l : List α) :
    (dedupFirstAux seen l).Nodup := by
  induction l generalizing seen with
  | nil => simp [dedupFirstAux]
  | cons y ys ih =>
    by_cases hy : y ∈ seen
    · rw [dedupFirstAux, if_pos hy]; exact ih seen
    · rw [dedupFirstAux, if_neg hy, List.nodup_cons]
      refine ⟨?_, ih _⟩
      intro hmem
      rw [dedupFirstAux_mem] at hmem
      exact hmem.2 (List.mem_cons_self _ _)

theorem dedupFirst_mem [DecidableEq α] (l : List α) (x : α) :
    x ∈ dedupFirst l ↔ x ∈ l := by
  rw [dedupFirst, dedupFirstAux_mem]; simp

theorem dedupFirst_nodup [DecidableEq α] (l : List α) : (dedupFirst l).Nodup :=
  dedupFirstAux_nodup [] l

/-- C9 (corrected): at chunk ids `b:x`, `a:y` the stats list the category
prefixes as `["b", "a"]`, which is not sorted — `list(set(...))` applies no
sort. -/
theorem C9_counterexample :
    (run_diagnostics chunksC9).stats.categories = ["b", "a"] ∧
    ¬ List.Sorted (fun a b => pyStrLe a b = true)
        (run_diagnostics chunksC9).stats.categories := by
  refine ⟨rfl, ?_⟩
  show ¬ List.Sorted (fun a b => pyStrLe a b = true) ["b", "a"]
  decide

/-- C9 (amended): for every document with at least one canonical chunk, the
summary statistics include the distinct chunk-id category prefixes as a
duplicate-free list (one entry per distinct prefix of an id containing a
colon), but in set-iteration order, not sorted. -/
theorem C9_amended (chunks : List ChunkData) (h : chunks ≠ []) :
    ((run_diagnostics chunks).stats.categories).Nodup ∧
    ∀ s, s ∈ (run_diagnostics chunks).stats.categories ↔
      s ∈ (chunks.filter (fun c => c.id.data.contains ':')).map (fun c => catOf c.id) := by
  have hne : chunks.isEmpty = false := by
    cases chunks with
    | nil => exact absurd rfl h
    | cons a l => rfl
  constructor
  · simp only [run_diagnostics, hne, Bool.false_eq_true, if_false]
    exact dedupFirst_nodup _
  · intro s
    simp only [run_diagnostics, hne, Bool.false_eq_true, if_false]
    exact dedupFirst_mem _ _

theorem C9_amended_witness :
    ((run_diagnostics chunksC9).stats.categories).Nodup ∧
    ∀ s, s ∈ (run_diagnostics chunksC9).stats.categories ↔
      s ∈ (chunksC9.filter (fun c => c.id.data.contains ':')).map (fun c => catOf c.id) :=
  C9_amended chunksC9 (by decide)

theorem check_semantic_similarity_severity (chunks : List ChunkData) (i : DIssue)
    (h : i ∈ check_semantic_similarity chunks) : i.severity = .warning := by
  induction chunks with
  | nil => simp [check_semantic_similarity] at h
  | cons a rest ih =>
    rw [check_semantic_similarity] at h
    rcases List.mem_append.mp h with h1 | h2
    · obtain ⟨b, _, hfb⟩ := List.mem_filterMap.mp h1
      dsimp only at hfb
      split at hfb
      · cases hfb; rfl
      · cases hfb
    · exact ih h2

theorem contextIssuesFor_error (c : ChunkData) (i : DIssue)
    (h : i ∈ contextIssuesFor c) (he : i.severity = .error) :
    i.category = "context_quality" ∧ i.kind = .emptyContext := by
  rw [contextIssuesFor] at h
  split at h
  · rcases List.mem_singleton.mp h with rfl
    exact ⟨rfl, rfl⟩
  · rcases List.mem_append.mp h with h1 | h2
    · rcases List.mem_append.mp h1 with h3 | h4
      · split at h3
        · rcases List.mem_singleton.mp h3 with rfl
          cases he
        · cases h3
      · split at h4
        · rcases List.mem_singleton.mp h4 with rfl
          cases he
        · cases h4
    · split at h2
      · dsimp only at h2
        split at h2
        · split at h2
          · rcases List.mem_singleton.mp h2 with rfl
            cases he
          · cases h2
        · cases h2
      · cases h2

theorem check_context_quality_error (chunks : List ChunkData) (i : DIssue)
    (h : i ∈ check_context_quality chunks) (he : i.severity = .error) :
    i.category = "context_quality" ∧ i.kind = .emptyContext := by
  obtain ⟨c, _, hi⟩ := List.mem_flatMap.mp h
  exact contextIssuesFor_error c i hi he

theorem check_tag_overlap_severity (chunks : List ChunkData) (i : DIssue)
    (h : i ∈ check_tag_overlap chunks) : i.severity = .info ∨ i.severity = .warning := by
  rw [check_tag_overlap] at h
  split at h
  · cases h
  · rcases List.mem_append.mp h with h1 | h2
    · split at h1
      · rcases List.mem_singleton.mp h1 with rfl
        exact Or.inl rfl
      · cases h1
    · obtain ⟨g, _, hfg⟩ := List.mem_filterMap.mp h2
      split at hfg
      · cases hfg; exact Or.inr rfl
      · cases hfg

theorem check_id_naming_severity (chunks : List ChunkData) (i : DIssue)
    (h : i ∈ check_id_naming chunks) : i.severity = .warning ∨ i.severity = .info := by
  rw [check_id_naming] at h
  rcases List.mem_append.mp h with h1 | h2
  · obtain ⟨c, _, hfc⟩ := List.mem_filterMap.mp h1
    split at hfc
    · cases hfc; exact Or.inl rfl
    · cases hfc
  · split at h2
    · rcases List.mem_singleton.mp h2 with rfl
      exact Or.inr rfl
    · cases h2

/-- C3 (corrected): on a chunk with empty context and non-empty content the
quality heuristics emit an error-severity issue (category `context_quality`),
so the four heuristics are not warning/info-only. -/
theorem C3_counterexample :
    (run_diagnostics [chunkC3]).issues.map (fun i => (i.category, i.severity)) =
      [("context_quality", Sev.error)] := rfl

/-- C3 (amended): every issue produced by the four quality heuristics has
severity warning or info, with one exception: the empty-context check of
context quality, whose issue is error-severity with kind `emptyContext`. -/
theorem C3_amended (chunks : List ChunkData) (i : DIssue)
    (h : i ∈ check_semantic_similarity chunks ++ check_context_quality chunks ++
         check_tag_overlap chunks ++ check_id_naming chunks)
    (he : i.severity = .error) :
    i.category = "context_quality" ∧ i.kind = .emptyContext := by
  rcases List.mem_append.mp h with h123 | h4
  · rcases List.mem_append.mp h123 with h12 | h3
    · rcases List.mem_append.mp h12 with h1 | h2
      · rw [check_semantic_similarity_severity chunks i h1] at he
        cases he
      · exact check_context_quality_error chunks i h2 he
    · rcases check_tag_overlap_severity chunks i h3 with hs | hs <;> rw [hs] at he <;> cases he
  · rcases check_id_naming_severity chunks i h4 with hs | hs <;> rw [hs] at he <;> cases he

theorem C3_amended_witness :
    issueC3 ∈ check_semantic_similarity [chunkC3] ++ check_context_quality [chunkC3] ++
      check_tag_overlap [chunkC3] ++ check_id_naming [chunkC3] ∧
    issueC3.severity = .error ∧
    issueC3.category = "context_quality" ∧ issueC3.kind = .emptyContext :=
  ⟨by decide, rfl,
   C3_amended [chunkC3] issueC3 (by decide) rfl⟩

theorem getTagsList_good (xs : List Yaml)
    (h : (xs.all (fun x => match x with | .str _ => true | _ => false)) = true) :
    getTagsList xs =
      .ok (xs.filterMap (fun x => match x with | .str t => some t | _ => none)) := by
  induction xs with
  | nil => rfl
  | cons x rest ih =>
    rw [List.all_cons, Bool.and_eq_true] at h
    match x, h.1 with
    | .str t, _ =>
      rw [getTagsList, ih h.2, List.filterMap_cons]
      rfl

theorem loadEntry_good (bg : String → Option String) (e : Yaml)
    (h : goodEntryD e = true) : loadEntry bg e = .ok (entryRecord bg e) := by
  match e, h with
  | .map kvs, h =>
    rw [goodEntryD] at h
    simp only [Bool.and_eq_true] at h
    obtain ⟨⟨hid, hctx⟩, htags⟩ := h
    rw [loadEntry, entryRecord]
    cases hi : Yaml.lookup kvs "id" with
    | none => rfl
    | some v =>
      rw [hi] at hid
      match v, hid with
      | .str s, _ =>
        by_cases hs : s = ""
        · subst hs; simp [Yaml.truthy]
        · simp only [Option.getD_some]
          have htr : (!(Yaml.str s).truthy) = false := by simp [Yaml.truthy, hs]
          rw [htr]
          simp only [Bool.false_eq_true, if_false, getStrField, if_neg hs]
          cases hc : Yaml.lookup kvs "context" with
          | none =>
            cases ht : Yaml.lookup kvs "tags" with
            | none => simp [getTagsField, getTagsList, getStrField]
            | some w =>
              rw [ht] at htags
              match w, htags with
              | .list xs, htags => simp [getTagsField, getTagsList_good xs htags]
          | some w =>
            rw [hc] at hctx
            match w, hctx with
            | .str c, _ =>
              cases ht : Yaml.lookup kvs "tags" with
              | none => simp [getTagsField, getTagsList, getStrField]
              | some w2 =>
                rw [ht] at htags
                match w2, htags with
                | .list xs, htags =>
                  simp [getTagsField, getStrField, getTagsList_good xs htags]

theorem loadFold_ok (bg : String → Option String) (entries : List Yaml)
    (h : entries.all goodEntryD = true) (acc : List ChunkData) :
    entries.foldl (loadStep bg) (.ok acc) =
      .ok (acc ++ entries.filterMap (entryRecord bg)) := by
  induction entries generalizing acc with
  | nil => simp
  | cons e rest ih =>
    rw [List.all_cons, Bool.and_eq_true] at h
    rw [List.foldl_cons]
    have hstep : loadStep bg (.ok acc) e = .ok (acc ++ (entryRecord bg e).toList) := by
      rw [loadStep, loadEntry_good bg e h.1]
      cases entryRecord bg e <;> simp
    rw [hstep]
    cases hrec : entryRecord bg e with
    | none =>
      rw [ih h.2, List.filterMap_cons, hrec]
      simp
    | some c =>
      rw [ih h.2, List.filterMap_cons, hrec]
      simp

theorem load_chunks_mkFm (entries : List Yaml) (body : List BItem)
    (h : entries.all goodEntryD = true) :
    load_chunks (mkFm entries) body =
      .ok (entries.filterMap (entryRecord (extract_chunks body))) :=
  loadFold_ok (extract_chunks body) entries h []

theorem entryRecord_id (bg : String → Option String) (e : Yaml) :
    (entryRecord bg e).map (fun c => c.id) =
      (match entryIdOf e with
       | some (.str s) => if s ≠ "" then some s else none
       | _ => none) := by
  cases e with
  | map kvs =>
    rw [entryRecord, entryIdOf]
    cases Yaml.lookup kvs "id" with
    | none => rfl
    | some v =>
      cases v with
      | str s =>
        by_cases hs : s = ""
        · subst hs; simp
        · simp [hs]
      | null => rfl
      | bool b => rfl
      | int n => rfl
      | list xs => rfl
      | map m => rfl
  | null => rfl
  | bool b => rfl
  | int n => rfl
  | str s => rfl
  | list xs => rfl

/-- C1 (corrected): in a document whose header declares only `a:x` while the
body carries a well-formed closed pair for `b:y`, the body pair is extracted
with its content, yet the canonical chunk set holds only `a:x` — the set is
not the union of header and body ids. -/
theorem C1_counterexample :
    extract_chunks docC1body "b:y" = some "c" ∧
    load_chunks docC1fm docC1body =
      .ok [{ id := "a:x", context := "c", content := "", tags := [] }] ∧
    (loadedOf (load_chunks docC1fm docC1body)).countP (fun c => c.id = "b:y") = 0 :=
  ⟨rfl, rfl, rfl⟩

/-- C1 (amended): the canonical chunk set of the diagnostics loader consists
of exactly the header entries with a truthy id, in header order (with content
joined from the body by id); body-extracted ids missing from the header
contribute no record. -/
theorem C1_amended (entries : List Yaml) (body : List BItem)
    (h : entries.all goodEntryD = true) :
    load_chunks (mkFm entries) body =
      .ok (entries.filterMap (entryRecord (extract_chunks body))) ∧
    (entries.filterMap (entryRecord (extract_chunks body))).map (fun c => c.id) =
      headerIdsD entries := by
  refine ⟨load_chunks_mkFm entries body h, ?_⟩
  rw [List.map_filterMap, headerIdsD]
  exact List.filterMap_congr (fun e _ => entryRecord_id (extract_chunks body) e)

theorem C1_amended_witness :
    load_chunks (mkFm entriesC1) docC1body =
      .ok (entriesC1.filterMap (entryRecord (extract_chunks docC1body))) ∧
    (entriesC1.filterMap (entryRecord (extract_chunks docC1body))).map (fun c => c.id) =
      headerIdsD entriesC1 :=
  C1_amended entriesC1 docC1body (by decide)

theorem joinWithChar_singleton (sep : Char) (s : String) : joinWithChar sep [s] = s := by
  rw [joinWithChar]
  simp [List.intercalate]

/-- C2 (corrected): with the same id in two well-formed pairs (contents `A`
then `B`), the extracted content for that id is `B`, the last pair's content,
not the first's. -/
theorem C2_counterexample :
    extract_chunks docC2body "a:b" = some "B" ∧
    (some "B" : Option String) ≠ some "A" :=
  ⟨rfl, by decide⟩

/-- C2 (amended): for a body with two well-formed flat pairs for the same id,
exactly one duplicate-id error is reported and the validator records the
first pair's line, but the extracted content kept for the id is the LAST
encountered pair's (the dict comprehension overwrites), not the first's. -/
theorem C2_amended (x a b : String) :
    extract_chunks [.openTag x, .text a, .closeTag, .openTag x, .text b, .closeTag] x =
      some (pyStrip b) ∧
    (scanBody [] 0
        [.openTag x, .text a, .closeTag, .openTag x, .text b, .closeTag]).errs.countP
      isDupBody = 1 ∧
    bodyLookup x
      (scanBody [] 0
        [.openTag x, .text a, .closeTag, .openTag x, .text b, .closeTag]).bodyIds =
      some 1 := by
  refine ⟨?_, ?_, ?_⟩
  · simp [extract_chunks, extractMatches, extractAux, renderItem, lookupLast,
      joinWithChar_singleton]
  · by_cases hid : idOk x <;>
      simp [scanBody, scanLines, scanLine, bodyLookup, keyMem, isDupBody, hid,
        List.countP_append, List.countP_cons]
  · by_cases hid : idOk x <;>
      simp [scanBody, scanLines, scanLine, bodyLookup, keyMem, hid]

theorem headerEntryStep_good_isOk (pe : String → Bool) (st : HeaderSt) (i : Nat)
    (e : Yaml) (h : goodEntryV e = true) :
    ∃ st1, headerEntryStep pe st i e = .ok st1 := by
  match e, h with
  | .map kvs, h =>
    rw [goodEntryV] at h
    simp only [Bool.and_eq_true] at h
    obtain ⟨hid, hcp⟩ := h
    rw [headerEntryStep]
    simp only [Yaml.pyIn]
    cases hi : Yaml.lookup kvs "id" with
    | none => simp [hi]
    | some v =>
      rw [hi] at hid
      have hadd : setAdd ((Yaml.lookup kvs "id").getD .null) st.all_ids =
          .ok (if st.all_ids.any (fun y => Yaml.scalarEq y v) then st.all_ids
               else st.all_ids ++ [v]) := by
        rw [setAdd, hi]
        simp [if_pos hid]
      have hmm : ∃ l, validate_multimodal_fields kvs ((Yaml.lookup kvs "id").getD .null)
          (i + 2) pe = .ok l := by
        rw [validate_multimodal_fields]
        cases hc : Yaml.lookup kvs "content_path" with
        | none => exact ⟨_, rfl⟩
        | some pv =>
          rw [hc] at hcp
          match pv, hcp with
          | .str p, _ =>
            by_cases hm : isMediaType (Yaml.lookup kvs "type") <;>
              by_cases hp : pe p <;> simp [hm, hp]
      obtain ⟨l, hl⟩ := hmm
      simp only [hi, Option.isSome_some, Bool.not_true, Bool.false_eq_true, if_false,
        Option.getD_some] at hadd hl ⊢
      rw [hadd, hl]
      exact ⟨_, rfl⟩

theorem headerFold_good_isOk (pe : String → Bool) (entries : List Yaml)
    (h : entries.all goodEntryV = true) :
    ∀ (i : Nat) (st : HeaderSt), ∃ st1, headerFold pe entries i st = .ok st1 := by
  induction entries with
  | nil => intro i st; exact ⟨st, rfl⟩
  | cons e rest ih =>
    rw [List.all_cons, Bool.and_eq_true] at h
    intro i st
    obtain ⟨st1, hst1⟩ := headerEntryStep_good_isOk pe st i e h.1
    rw [headerFold, hst1]
    exact ih h.2 (i + 1) st1

theorem processHeader_wellShaped_isOk (fm : Option Yaml) (pe : String → Bool)
    (h : wellShapedV fm = true) : (processHeader fm pe).isOk = true := by
  match fm, h with
  | none, _ => rfl
  | some .null, _ => rfl
  | some (.map kvs), h =>
    rw [wellShapedV] at h
    rw [processHeader]
    rotate_left
    · intro hh; cases hh
    cases hc : Yaml.lookup kvs "chunks" with
    | none =>
      by_cases hk : kvs.isEmpty <;>
        · simp only [Yaml.truthy, hk, Yaml.pyIn, hc, Option.isSome_none, Bool.not_true,
            Bool.not_false, Bool.false_eq_true, if_false, if_true]
          rfl
    | some v =>
      rw [hc] at h
      match v, h with
      | .list es, h =>
        have hkvs : kvs.isEmpty = false := by
          cases kvs with
          | nil => simp [Yaml.lookup] at hc
          | cons a l => rfl
        simp only [Yaml.truthy, hkvs, Bool.not_false, if_true, Yaml.pyIn, hc,
          Option.isSome_some, if_true]
        simp only [Yaml.pySubscript, hc, Option.getD_some, Yaml.pyIter]
        obtain ⟨st1, hst1⟩ := headerFold_good_isOk pe es h 0 ⟨[], [], []⟩
        rw [hst1]
        rfl

theorem load_chunks_wellShaped_isOk (fm : Option Yaml) (body : List BItem)
    (h : wellShapedD fm = true) : (load_chunks fm body).isOk = true := by
  match fm, h with
  | none, _ => rfl
  | some .null, _ => rfl
  | some (.map kvs), h =>
    rw [wellShapedD] at h
    rw [load_chunks]
    cases hc : Yaml.lookup kvs "chunks" with
    | none =>
      by_cases hk : kvs.isEmpty <;>
        · simp only [Yaml.truthy, hk, Yaml.pyIn, hc, Option.isSome_none, Bool.not_true,
            Bool.not_false, Bool.false_eq_true, if_false, if_true]
          rfl
    | some v =>
      rw [hc] at h
      match v, h with
      | .list es, h =>
        have hkvs : kvs.isEmpty = false := by
          cases kvs with
          | nil => simp [Yaml.lookup] at hc
          | cons a l => rfl
        simp only [Yaml.truthy, hkvs, Bool.not_false, if_true, Yaml.pyIn, hc,
          Option.isSome_some, if_true]
        simp only [Yaml.pySubscript, hc, Option.getD_some, Yaml.pyIter]
        rw [loadFold_ok (extract_chunks body) es h []]
        rfl

/-- C4 (corrected): frontmatter whose `chunks` value is a scalar makes both
the validator and the diagnostics loader raise a `TypeError`
(`enumerate(frontmatter['chunks'])` over a non-iterable) instead of
surfacing issue data. -/
theorem C4_counterexample :
    validate_file docC4fm [] 0 (fun _ => false) = .error .typeError ∧
    load_chunks docC4fm [] = .error .typeError :=
  ⟨rfl, rfl⟩

/-- C4 (amended): the pipeline stages run to completion without raising
provided the frontmatter is absent, `None`, or a mapping whose `chunks` value
is a list of well-shaped mappings (hashable ids, string `content_path`,
string-typed loader fields); outside those shapes — e.g. a scalar `chunks`
value, or a non-mapping entry — a `TypeError`/`AttributeError` propagates
out of the run. -/
theorem C4_amended (fm : Option Yaml) (body : List BItem) (fmEnd : Nat)
    (pe : String → Bool)
    (h1 : wellShapedV fm = true) (h2 : wellShapedD fm = true) :
    (validate_file fm body fmEnd pe).isOk = true ∧
    (load_chunks fm body).isOk = true := by
  refine ⟨?_, load_chunks_wellShaped_isOk fm body h2⟩
  rw [validate_file]
  have := processHeader_wellShaped_isOk fm pe h1
  cases hph : processHeader fm pe with
  | error e => rw [hph] at this; exact absurd this (by simp [Except.isOk, Except.toBool])
  | ok hst => rfl

theorem C4_amended_witness :
    (validate_file docC1fm docC1body 0 (fun _ => false)).isOk = true ∧
    (load_chunks docC1fm docC1body).isOk = true :=
  C4_amended docC1fm docC1body 0 (fun _ => false) (by decide) (by decide)

theorem depsPart_filter (chunk_id : Yaml) (line : Nat) (all_ids : List Yaml)
    (ds : List String) :
    ((ds.map Yaml.str).flatMap (fun dep =>
      match dep with
      | .str s =>
        if !(all_ids.any (fun x => Yaml.scalarEq x (.str s))) &&
           !(Yaml.scalarEq dep chunk_id) then
          [⟨line, VKind.depNotFound chunk_id s, Sev.warning⟩]
        else []
      | _ => [(⟨line, VKind.depNotString chunk_id, Sev.error⟩ : VError)])).filter
        isDepNotFound =
      (ds.filter (fun d => !(all_ids.any (fun y => Yaml.scalarEq y (.str d))) &&
                           !(Yaml.scalarEq (.str d) chunk_id))).map
        (fun d => ⟨line, .depNotFound chunk_id d, .warning⟩) := by
  induction ds with
  | nil => rfl
  | cons d rest ih =>
    rw [List.map_cons, List.flatMap_cons, List.filter_append, ih, List.filter_cons]
    by_cases hd : (!(all_ids.any (fun x => Yaml.scalarEq x (.str d))) &&
        !(Yaml.scalarEq (.str d) chunk_id)) = true
    · rw [if_pos hd]
      show (List.filter isDepNotFound
          (if !(all_ids.any (fun x => Yaml.scalarEq x (.str d))) &&
             !(Yaml.scalarEq (.str d) chunk_id) then
            [⟨line, VKind.depNotFound chunk_id d, Sev.warning⟩]
          else [])) ++ _ = _
      rw [if_pos hd]
      rfl
    · rw [if_neg hd]
      show (List.filter isDepNotFound
          (if !(all_ids.any (fun x => Yaml.scalarEq x (.str d))) &&
             !(Yaml.scalarEq (.str d) chunk_id) then
            [⟨line, VKind.depNotFound chunk_id d, Sev.warning⟩]
          else [])) ++ _ = _
      rw [if_neg hd]
      rfl

theorem depsPart_countP (chunk_id : Yaml) (line : Nat) (all_ids : List Yaml)
    (ds : List String) (p : VError → Bool)
    (hp : ∀ s, p ⟨line, VKind.depNotFound chunk_id s, Sev.warning⟩ = false) :
    ((ds.map Yaml.str).flatMap (fun dep =>
      match dep with
      | .str s =>
        if !(all_ids.any (fun x => Yaml.scalarEq x (.str s))) &&
           !(Yaml.scalarEq dep chunk_id) then
          [⟨line, VKind.depNotFound chunk_id s, Sev.warning⟩]
        else []
      | _ => [(⟨line, VKind.depNotString chunk_id, Sev.error⟩ : VError)])).countP p = 0 := by
  induction ds with
  | nil => rfl
  | cons d rest ih =>
    rw [List.map_cons, List.flatMap_cons, List.countP_append, ih, Nat.add_zero]
    show (List.countP p
        (if !(all_ids.any (fun x => Yaml.scalarEq x (.str d))) &&
           !(Yaml.scalarEq (.str d) chunk_id) then
          [⟨line, VKind.depNotFound chunk_id d, Sev.warning⟩]
        else [])) = 0
    by_cases hd : (!(all_ids.any (fun x => Yaml.scalarEq x (.str d))) &&
        !(Yaml.scalarEq (.str d) chunk_id)) = true
    · rw [if_pos hd, List.countP_cons, List.countP_nil, hp d]
      rfl
    · rw [if_neg hd]
      rfl

/-- C5 (corrected): a dependency naming a chunk id that the header declares
only LATER than the referencing entry still yields a warning — the known-id
set is accumulated incrementally, so forward references count as not found. -/
theorem C5_counterexample :
    (headerStOf (processHeader docC5fm (fun _ => false))).errs.filter isDepNotFound =
      [⟨2, .depNotFound (.str "a:a") "b:b", .warning⟩] ∧
    occOf "b:b" [.map [("id", .str "a:a"), ("context", .str "c"),
                       ("dependencies", .list [.str "b:b"])],
                 .map [("id", .str "b:b"), ("context", .str "c")]] = 1 :=
  ⟨rfl, rfl⟩

/-- C5 (amended): for a `dependencies` list of strings, warnings (never
errors) are emitted exactly for the entries that are not equal to the chunk's
own id and not among the ids known AT THAT POINT — the `all_chunk_ids` set
passed in, which `validate_file` fills with the ids declared by this entry
and earlier ones only; an id declared by a later header entry still warns. -/
theorem C5_amended (chunk_def : List (String × Yaml)) (chunk_id : Yaml) (line : Nat)
    (all_ids : List Yaml) (deps : List String)
    (h : Yaml.lookup chunk_def "dependencies" = some (.list (deps.map Yaml.str))) :
    (validate_agentic_fields chunk_def chunk_id line all_ids).filter isDepNotFound =
      (deps.filter (fun d => !(all_ids.any (fun y => Yaml.scalarEq y (.str d))) &&
                             !(Yaml.scalarEq (.str d) chunk_id))).map
        (fun d => ⟨line, .depNotFound chunk_id d, .warning⟩) ∧
    (validate_agentic_fields chunk_def chunk_id line all_ids).countP isDepNotString = 0 ∧
    (validate_agentic_fields chunk_def chunk_id line all_ids).countP isDepsNotList = 0 := by
  rw [validate_agentic_fields, h]
  have hpr : (match Yaml.lookup chunk_def "priority" with
      | some v =>
        if Yaml.scalarEq v (.str "high") || Yaml.scalarEq v (.str "medium") ||
           Yaml.scalarEq v (.str "low") then ([] : List VError)
        else [⟨line, .badPriority chunk_id, .error⟩]
      | none => []).filter isDepNotFound = [] ∧
      (match Yaml.lookup chunk_def "priority" with
      | some v =>
        if Yaml.scalarEq v (.str "high") || Yaml.scalarEq v (.str "medium") ||
           Yaml.scalarEq v (.str "low") then ([] : List VError)
        else [⟨line, .badPriority chunk_id, .error⟩]
      | none => []).countP isDepNotString = 0 ∧
      (match Yaml.lookup chunk_def "priority" with
      | some v =>
        if Yaml.scalarEq v (.str "high") || Yaml.scalarEq v (.str "medium") ||
           Yaml.scalarEq v (.str "low") then ([] : List VError)
        else [⟨line, .badPriority chunk_id, .error⟩]
      | none => []).countP isDepsNotList = 0 := by
    cases Yaml.lookup chunk_def "priority" with
    | none => exact ⟨rfl, rfl, rfl⟩
    | some v =>
      by_cases hv : (Yaml.scalarEq v (.str "high") || Yaml.scalarEq v (.str "medium") ||
          Yaml.scalarEq v (.str "low")) = true
      · rw [show (match some v with
          | some v =>
            if Yaml.scalarEq v (.str "high") || Yaml.scalarEq v (.str "medium") ||
               Yaml.scalarEq v (.str "low") then ([] : List VError)
            else [⟨line, .badPriority chunk_id, .error⟩]
          | none => ([] : List VError)) = [] from by rw [show (match some v with
            | some v =>
              if Yaml.scalarEq v (.str "high") || Yaml.scalarEq v (.str "medium") ||
                 Yaml.scalarEq v (.str "low") then ([] : List VError)
              else [⟨line, .badPriority chunk_id, .error⟩]
            | none => ([] : List VError)) =
            (if Yaml.scalarEq v (.str "high") || Yaml.scalarEq v (.str "medium") ||
               Yaml.scalarEq v (.str "low") then ([] : List VError)
            else [⟨line, .badPriority chunk_id, .error⟩]) from rfl, if_pos hv]]
        exact ⟨rfl, rfl, rfl⟩
      · rw [show (match some v with
          | some v =>
            if Yaml.scalarEq v (.str "high") || Yaml.scalarEq v (.str "medium") ||
               Yaml.scalarEq v (.str "low") then ([] : List VError)
            else [⟨line, .badPriority chunk_id, .error⟩]
          | none => ([] : List VError)) = [⟨line, .badPriority chunk_id, .error⟩] from by
            rw [show (match some v with
            | some v =>
              if Yaml.scalarEq v (.str "high") || Yaml.scalarEq v (.str "medium") ||
                 Yaml.scalarEq v (.str "low") then ([] : List VError)
              else [⟨line, .badPriority chunk_id, .error⟩]
            | none => ([] : List VError)) =
            (if Yaml.scalarEq v (.str "high") || Yaml.scalarEq v (.str "medium") ||
               Yaml.scalarEq v (.str "low") then ([] : List VError)
            else [⟨line, .badPriority chunk_id, .error⟩]) from rfl, if_neg hv]]
        exact ⟨rfl, rfl, rfl⟩
  obtain ⟨hp1, hp2, hp3⟩ := hpr
  refine ⟨?_, ?_, ?_⟩
  · rw [List.filter_append, hp1, List.nil_append]
    exact depsPart_filter chunk_id line all_ids deps
  · rw [List.countP_append, hp2, Nat.zero_add]
    exact depsPart_countP chunk_id line all_ids deps isDepNotString (fun s => rfl)
  · rw [List.countP_append, hp3, Nat.zero_add]
    exact depsPart_countP chunk_id line all_ids deps isDepsNotList (fun s => rfl)

theorem C5_amended_witness :
    (validate_agentic_fields
        [("id", .str "a:a"), ("dependencies", .list [.str "b:b"])]
        (.str "a:a") 2 [.str "a:a"]).filter isDepNotFound =
      (["b:b"].filter (fun d => !([Yaml.str "a:a"].any (fun y => Yaml.scalarEq y (.str d))) &&
                                !(Yaml.scalarEq (.str d) (.str "a:a")))).map
        (fun d => ⟨2, .depNotFound (.str "a:a") d, .warning⟩) ∧
    (validate_agentic_fields
        [("id", .str "a:a"), ("dependencies", .list [.str "b:b"])]
        (.str "a:a") 2 [.str "a:a"]).countP isDepNotString = 0 ∧
    (validate_agentic_fields
        [("id", .str "a:a"), ("dependencies", .list [.str "b:b"])]
        (.str "a:a") 2 [.str "a:a"]).countP isDepsNotList = 0 :=
  C5_amended [("id", .str "a:a"), ("dependencies", .list [.str "b:b"])]
    (.str "a:a") 2 [.str "a:a"] ["b:b"] rfl

theorem scanLine_errs_mono (fm : List (Yaml × Yaml)) (line : Nat) (st : ScanSt)
    (it : BItem) (e : VError) (h : e ∈ st.errs) : e ∈ (scanLine fm line st it).errs := by
  cases it with
  | text s => exact h
  | openTag id =>
    rw [scanLine]
    exact List.mem_append_left _ (List.mem_append_left _ (List.mem_append_left _
      (List.mem_append_left _ h)))
  | closeTag =>
    rw [scanLine]
    cases st.stack with
    | nil => exact List.mem_append_left _ h
    | cons p rest => exact h

theorem scanLines_errs_mono (fm : List (Yaml × Yaml)) (items : List BItem)
    (n : Nat) (st : ScanSt) (e : VError) (h : e ∈ st.errs) :
    e ∈ (scanLines fm items n st).errs := by
  induction items generalizing n st with
  | nil => exact h
  | cons it rest ih =>
    exact ih (n + 1) _ (scanLine_errs_mono fm n st it e h)

theorem scanBody_errs_of_scan (fm : List (Yaml × Yaml)) (fmEnd : Nat)
    (items : List BItem) (e : VError)
    (h : e ∈ (scanLines fm items (fmEnd + 1) ⟨[], [], []⟩).errs) :
    e ∈ (scanBody fm fmEnd items).errs := by
  rw [scanBody]
  exact List.mem_append_left _ (List.mem_append_left _ h)

theorem scanLines_append (fm : List (Yaml × Yaml)) (l1 l2 : List BItem)
    (n : Nat) (st : ScanSt) :
    scanLines fm (l1 ++ l2) n st =
      scanLines fm l2 (n + l1.length) (scanLines fm l1 n st) := by
  induction l1 generalizing n st with
  | nil => simp [scanLines]
  | cons it rest ih =>
    rw [List.cons_append, scanLines, scanLines, ih (n + 1) (scanLine fm n st it)]
    congr 1
    simp
    omega

theorem scanLines_bodyIds_from_open (fm : List (Yaml × Yaml)) (items : List BItem)
    (n : Nat) (st : ScanSt) (p : String × Nat)
    (h : p ∈ (scanLines fm items n st).bodyIds) :
    p ∈ st.bodyIds ∨ BItem.openTag p.1 ∈ items := by
  induction items generalizing n st with
  | nil => exact Or.inl h
  | cons it rest ih =>
    rcases ih (n + 1) (scanLine fm n st it) h with h1 | h2
    · cases it with
      | text s => exact Or.inl h1
      | closeTag =>
        rw [scanLine] at h1
        split at h1 <;> exact Or.inl h1
      | openTag id =>
        rw [scanLine] at h1
        cases hdup : bodyLookup id st.bodyIds with
        | some l0 =>
          rw [hdup] at h1
          exact Or.inl h1
        | none =>
          rw [hdup] at h1
          rcases List.mem_append.mp h1 with h3 | h4
          · exact Or.inl h3
          · rcases List.mem_singleton.mp h4 with rfl
            exact Or.inr (List.mem_cons_self _ _)
    · exact Or.inr (List.mem_cons_of_mem _ h2)

/-- C7 (confirmed): when the header declares at least one chunk, every open
marker whose id is not among the header ids yields an error-severity issue at
its line, and every header id that no open marker uses yields a
warning-severity issue — the asymmetry holds for every document. -/
theorem C7_theorem (fm : List (Yaml × Yaml)) (fmEnd : Nat) (items : List BItem)
    (hfm : fm ≠ []) :
    (∀ (i : Nat) (id : String), items[i]? = some (.openTag id) →
      keyMem (.str id) fm = false →
      (⟨fmEnd + 1 + i, .notInFm id, .error⟩ : VError) ∈ (scanBody fm fmEnd items).errs) ∧
    (∀ kv, kv ∈ fm →
      (items.all (fun it => match it with
        | .openTag s => !Yaml.scalarEq kv.1 (.str s)
        | _ => true)) = true →
      (⟨1, .fmNotInBody kv.1, .warning⟩ : VError) ∈ (scanBody fm fmEnd items).errs) := by
  constructor
  · intro i id hget hkey
    have hlt : i < items.length := by
      by_contra hge
      rw [List.getElem?_eq_none (Nat.le_of_not_lt hge)] at hget
      cases hget
    have hgetEq : items[i] = BItem.openTag id := by
      have hg := List.getElem?_eq_getElem hlt
      rw [hg] at hget
      exact Option.some.inj hget
    have hsplit : items = items.take i ++ BItem.openTag id :: items.drop (i + 1) := by
      have h1 := List.take_append_drop i items
      rw [List.drop_eq_getElem_cons hlt, hgetEq] at h1
      exact h1.symm
    rw [hsplit]
    apply scanBody_errs_of_scan
    rw [scanLines_append]
    have hlen : (items.take i).length = i :=
      List.length_take_of_le (Nat.le_of_lt hlt)
    rw [hlen, scanLines]
    apply scanLines_errs_mono
    rw [scanLine]
    apply List.mem_append_left
    apply List.mem_append_left
    apply List.mem_append_left
    apply List.mem_append_right
    have hfm' : fm.isEmpty = false := by
      cases fm with
      | nil => exact absurd rfl hfm
      | cons a l => rfl
    simp [hfm', hkey]
  · intro kv hkv hall
    rw [scanBody]
    apply List.mem_append_right
    rw [List.mem_filterMap]
    refine ⟨kv, hkv, ?_⟩
    have hnone : ((scanLines fm items (fmEnd + 1) ⟨[], [], []⟩).bodyIds.any
        (fun b => Yaml.scalarEq kv.1 (.str b.1))) = false := by
      rw [List.any_eq_false]
      intro b hb
      rcases scanLines_bodyIds_from_open fm items (fmEnd + 1) ⟨[], [], []⟩ b hb with h0 | hopen
      · exact absurd h0 (List.not_mem_nil b)
      · have hx := List.all_eq_true.mp hall _ hopen
        simpa using hx
    simp [hnone]

theorem C7_theorem_witness :
    ((⟨1, .notInFm "b:y", .error⟩ : VError) ∈ (scanBody docC7fm 0 docC7body).errs) ∧
    ((⟨1, .fmNotInBody (.str "h:x"), .warning⟩ : VError) ∈
      (scanBody docC7fm 0 docC7body).errs) := by
  have h := C7_theorem docC7fm 0 docC7body (List.cons_ne_nil _ _)
  exact ⟨h.1 0 "b:y" rfl rfl,
         h.2 (.str "h:x", .map [("id", .str "h:x")]) (List.mem_singleton.mpr rfl) rfl⟩

/-- C8 (confirmed): opening a marker B while a marker A is still open always
yields a nesting error citing A and the line A was opened at, regardless of
what follows; and in the spec scenario (one pair nested directly inside
another) exactly one nesting error is emitted, citing the outer id, while
both ids are recorded and every marker is matched by a close (empty final
stack). -/
theorem C8_theorem :
    (∀ (fm : List (Yaml × Yaml)) (fmEnd : Nat) (p rest : List BItem)
       (B outer : String) (ol : Nat) (stk : List (String × Nat)),
      (scanLines fm p (fmEnd + 1) ⟨[], [], []⟩).stack = (outer, ol) :: stk →
      (⟨fmEnd + 1 + p.length, .nested B outer ol, .error⟩ : VError)
        ∈ (scanBody fm fmEnd (p ++ .openTag B :: rest)).errs) ∧
    ((scanBody [] 0 docC8body).errs.filter isNested =
        [⟨3, .nested "b:b" "a:a" 1, .error⟩] ∧
      (scanBody [] 0 docC8body).bodyIds = [("a:a", 1), ("b:b", 3)] ∧
      (scanBody [] 0 docC8body).stack = []) := by
  refine ⟨?_, rfl, rfl, rfl⟩
  intro fm fmEnd p rest B outer ol stk hstack
  apply scanBody_errs_of_scan
  rw [scanLines_append, scanLines]
  apply scanLines_errs_mono
  rw [scanLine]
  apply List.mem_append_left
  apply List.mem_append_right
  rw [hstack]
  exact List.mem_singleton.mpr rfl

theorem C8_theorem_witness :
    (⟨2, .nested "b:b" "a:a" 1, .error⟩ : VError) ∈
      (scanBody [] 0 ([.openTag "a:a"] ++ .openTag "b:b" :: [.closeTag, .closeTag])).errs :=
  C8_theorem.1 [] 0 [.openTag "a:a"] [.closeTag, .closeTag] "b:b" "a:a" 1 [] rfl

theorem temporal_countP (chunk_def : List (String × Yaml)) (chunk_id : Yaml)
    (line : Nat) (p : VError → Bool)
    (h1 : p ⟨line, .badCreatedAt chunk_id, .error⟩ = false)
    (h2 : p ⟨line, .badVersion chunk_id, .error⟩ = false) :
    (validate_temporal_fields chunk_def chunk_id line).countP p = 0 := by
  rw [validate_temporal_fields, List.countP_append]
  have hc : (match Yaml.lookup chunk_def "created_at" with
      | some (.str s) => if isoDateOk s then ([] : List VError)
                         else [⟨line, .badCreatedAt chunk_id, .error⟩]
      | some _ => [⟨line, .badCreatedAt chunk_id, .error⟩]
      | none => []).countP p = 0 := by
    cases Yaml.lookup chunk_def "created_at" with
    | none => rfl
    | some v =>
      cases v with
      | str s =>
        by_cases hs : isoDateOk s = true
        · simp [hs]
        · simp [hs, List.countP_cons, h1]
      | null => simp [List.countP_cons, h1]
      | bool b => simp [List.countP_cons, h1]
      | int n => simp [List.countP_cons, h1]
      | list l => simp [List.countP_cons, h1]
      | map m => simp [List.countP_cons, h1]
  have hv : (match Yaml.lookup chunk_def "version" with
      | some (.int n) => if n < 1 then [(⟨line, .badVersion chunk_id, .error⟩ : VError)]
                         else []
      | some (.bool b) => if b then ([] : List VError)
                          else [⟨line, .badVersion chunk_id, .error⟩]
      | some _ => [⟨line, .badVersion chunk_id, .error⟩]
      | none => []).countP p = 0 := by
    cases Yaml.lookup chunk_def "version" with
    | none => rfl
    | some v =>
      cases v with
      | int n =>
        by_cases hn : n < 1
        · simp [hn, List.countP_cons, h2]
        · simp [hn]
      | bool b => cases b <;> simp [List.countP_cons, h2]
      | null => simp [List.countP_cons, h2]
      | str s => simp [List.countP_cons, h2]
      | list l => simp [List.countP_cons, h2]
      | map m => simp [List.countP_cons, h2]
  rw [hc, hv]

theorem depsPartY_countP (chunk_id : Yaml) (line : Nat) (ids : List Yaml)
    (deps : List Yaml) (p : VError → Bool)
    (hNF : ∀ s, p ⟨line, .depNotFound chunk_id s, .warning⟩ = false)
    (hNS : p ⟨line, .depNotString chunk_id, .error⟩ = false) :
    (deps.flatMap (fun dep =>
      match dep with
      | .str s =>
        if !(ids.any (fun x => Yaml.scalarEq x (.str s))) &&
           !(Yaml.scalarEq dep chunk_id) then
          [(⟨line, VKind.depNotFound chunk_id s, Sev.warning⟩ : VError)]
        else []
      | _ => [(⟨line, VKind.depNotString chunk_id, Sev.error⟩ : VError)])).countP p = 0 := by
  induction deps with
  | nil => rfl
  | cons d rest ih =>
    rw [List.flatMap_cons, List.countP_append, ih, Nat.add_zero]
    cases d with
    | str s =>
      by_cases hs : (!(ids.any (fun x => Yaml.scalarEq x (.str s))) &&
          !(Yaml.scalarEq (.str s) chunk_id)) = true
      · show (List.countP p
          (if !(ids.any (fun x => Yaml.scalarEq x (.str s))) &&
              !(Yaml.scalarEq (.str s) chunk_id) then
            [⟨line, VKind.depNotFound chunk_id s, Sev.warning⟩]
          else [])) = 0
        rw [if_pos hs, List.countP_cons, List.countP_nil, hNF s]
        rfl
      · show (List.countP p
          (if !(ids.any (fun x => Yaml.scalarEq x (.str s))) &&
              !(Yaml.scalarEq (.str s) chunk_id) then
            [⟨line, VKind.depNotFound chunk_id s, Sev.warning⟩]
          else [])) = 0
        rw [if_neg hs]
        rfl
    | null => simp [List.countP_cons, hNS]
    | bool b => simp [List.countP_cons, hNS]
    | int n => simp [List.countP_cons, hNS]
    | list l => simp [List.countP_cons, hNS]
    | map m => simp [List.countP_cons, hNS]

theorem agentic_countP (chunk_def : List (String × Yaml)) (chunk_id : Yaml)
    (line : Nat) (ids : List Yaml) (p : VError → Bool)
    (hPr : p ⟨line, .badPriority chunk_id, .error⟩ = false)
    (hNF : ∀ s, p ⟨line, .depNotFound chunk_id s, .warning⟩ = false)
    (hNS : p ⟨line, .depNotString chunk_id, .error⟩ = false)
    (hNL : p ⟨line, .depsNotList chunk_id, .error⟩ = false) :
    (validate_agentic_fields chunk_def chunk_id line ids).countP p = 0 := by
  rw [validate_agentic_fields, List.countP_append]
  have h1 : (match Yaml.lookup chunk_def "priority" with
      | some v =>
        if Yaml.scalarEq v (.str "high") || Yaml.scalarEq v (.str "medium") ||
           Yaml.scalarEq v (.str "low") then ([] : List VError)
        else [⟨line, .badPriority chunk_id, .error⟩]
      | none => []).countP p = 0 := by
    cases Yaml.lookup chunk_def "priority" with
    | none => rfl
    | some v =>
      by_cases hv : (Yaml.scalarEq v (.str "high") || Yaml.scalarEq v (.str "medium") ||
          Yaml.scalarEq v (.str "low")) = true
      · simp [hv]
      · simp [hv, List.countP_cons, hPr]
  have h2 : (match Yaml.lookup chunk_def "dependencies" with
      | some (.list deps) =>
        deps.flatMap (fun dep =>
          match dep with
          | .str s =>
            if !(ids.any (fun x => Yaml.scalarEq x (.str s))) &&
               !(Yaml.scalarEq dep chunk_id) then
              [(⟨line, VKind.depNotFound chunk_id s, Sev.warning⟩ : VError)]
            else []
          | _ => [(⟨line, VKind.depNotString chunk_id, Sev.error⟩ : VError)])
      | some _ => [⟨line, .depsNotList chunk_id, .error⟩]
      | none => []).countP p = 0 := by
    cases Yaml.lookup chunk_def "dependencies" with
    | none => rfl
    | some v =>
      cases v with
      | list deps => exact depsPartY_countP chunk_id line ids deps p hNF hNS
      | null => simp [List.countP_cons, hNL]
      | bool b => simp [List.countP_cons, hNL]
      | int n => simp [List.countP_cons, hNL]
      | str s => simp [List.countP_cons, hNL]
      | map m => simp [List.countP_cons, hNL]
  rw [h1, h2]

theorem multimodal_countP (chunk_def : List (String × Yaml)) (chunk_id : Yaml)
    (line : Nat) (pe : String → Bool) (l : List VError) (p : VError → Bool)
    (h : validate_multimodal_fields chunk_def chunk_id line pe = .ok l)
    (hT : p ⟨line, .badType chunk_id, .error⟩ = false)
    (hPM : ∀ q, p ⟨line, .pathMissing chunk_id q, .warning⟩ = false)
    (hMU : p ⟨line, .pathMisuse chunk_id, .warning⟩ = false) :
    l.countP p = 0 := by
  rw [validate_multimodal_fields] at h
  have htype : (match Yaml.lookup chunk_def "type" with
      | some v =>
        if Yaml.scalarEq v (.str "text") || Yaml.scalarEq v (.str "image") ||
           Yaml.scalarEq v (.str "video") || Yaml.scalarEq v (.str "audio") then
          ([] : List VError)
        else [⟨line, .badType chunk_id, .error⟩]
      | none => []).countP p = 0 := by
    cases Yaml.lookup chunk_def "type" with
    | none => rfl
    | some v =>
      by_cases hv : (Yaml.scalarEq v (.str "text") || Yaml.scalarEq v (.str "image") ||
          Yaml.scalarEq v (.str "video") || Yaml.scalarEq v (.str "audio")) = true
      · simp [hv]
      · simp [hv, List.countP_cons, hT]
  split at h
  · cases h
    exact htype
  · split at h
    · split at h
      · split at h
        · cases h
          rw [List.countP_append, htype, List.countP_cons, List.countP_nil]
          rename_i q _ _
          rw [hPM q]
          simp
        · cases h
          exact htype
      · exact Except.noConfusion h
    · cases h
      rw [List.countP_append, htype, List.countP_cons, List.countP_nil, hMU]
      simp

/-- C10 (confirmed): a header entry declaring the empty string as id is
silently excluded from the diagnostics canonical chunk set — same loader
result as the entry with no id key at all, and no record —, while the
structural validator treats it as having an id: no missing-id error and the
empty string lands in `all_chunk_ids`, unlike the keyless entry, which gets
exactly one missing-id error. -/
theorem C10_theorem (body : List BItem) (pe : String → Bool) :
    load_chunks (mkFm [.map (("id", .str "") :: entryRestC10)]) body =
      load_chunks (mkFm [.map entryRestC10]) body ∧
    load_chunks (mkFm [.map (("id", .str "") :: entryRestC10)]) body = .ok [] ∧
    (headerStOf (processHeader (mkFm [.map (("id", .str "") :: entryRestC10)]) pe)).errs.countP
      isMissingId = 0 ∧
    (headerStOf (processHeader (mkFm [.map (("id", .str "") :: entryRestC10)]) pe)).all_ids =
      [.str ""] ∧
    (headerStOf (processHeader (mkFm [.map entryRestC10]) pe)).errs.countP isMissingId = 1 :=
  ⟨rfl, rfl, rfl, rfl, rfl⟩

theorem scalarEq_str (v : Yaml) (x : String) (h : Yaml.scalarEq v (.str x) = true) :
    v = .str x := by
  cases v with
  | str s =>
    rw [Yaml.scalarEq] at h
    rw [(by exact of_decide_eq_true h : s = x)]
  | null => cases h
  | bool b => cases h
  | int n => cases h
  | list l => cases h
  | map m => cases h

theorem keyMem_isSome (k : Yaml) (kvs : List (Yaml × Yaml)) :
    keyMem k kvs = (fmLookup k kvs).isSome := by
  induction kvs with
  | nil => rfl
  | cons p rest ih =>
    cases p with
    | mk k2 d2 =>
      rw [keyMem, List.any_cons, fmLookup]
      by_cases hp : Yaml.scalarEq k2 k = true
      · rw [if_pos hp]
        show (Yaml.scalarEq k2 k || rest.any fun kv => Yaml.scalarEq kv.1 k) = true
        rw [hp, Bool.true_or]
      · rw [Bool.not_eq_true] at hp
        rw [if_neg (by rw [hp]; exact Bool.false_ne_true)]
        show (Yaml.scalarEq k2 k || rest.any fun kv => Yaml.scalarEq kv.1 k) =
          (fmLookup k rest).isSome
        rw [hp, Bool.false_or, ← keyMem, ih]

theorem fmLookup_append_single (k v e : Yaml) (l : List (Yaml × Yaml)) :
    fmLookup k (l ++ [(v, e)]) =
      (match fmLookup k l with
       | some d => some d
       | none => if Yaml.scalarEq v k then some e else none) := by
  induction l with
  | nil => rfl
  | cons p rest ih =>
    cases p with
    | mk k2 d2 =>
      rw [List.cons_append, fmLookup, fmLookup]
      by_cases hp : Yaml.scalarEq k2 k = true
      · rw [if_pos hp, if_pos hp]
      · rw [if_neg hp, if_neg hp, ih]

theorem headerEntryStep_dup (pe : String → Bool) (st : HeaderSt) (i : Nat) (e : Yaml)
    (h : goodEntryV e = true) (x : String) :
    ∃ st1, headerEntryStep pe st i e = .ok st1 ∧
      st1.errs.countP (isDupFmFor x) =
        st.errs.countP (isDupFmFor x) +
          (match entryIdOf e with
           | some v => if Yaml.scalarEq v (.str x) && keyMem v st.fm_chunks then 1 else 0
           | none => 0) ∧
      st1.fm_chunks =
        (match entryIdOf e with
         | some v =>
           if keyMem v st.fm_chunks then st.fm_chunks else st.fm_chunks ++ [(v, e)]
         | none => st.fm_chunks) := by
  match e, h with
  | .map kvs, h =>
    rw [goodEntryV] at h
    simp only [Bool.and_eq_true] at h
    obtain ⟨hid, hcp⟩ := h
    cases hi : Yaml.lookup kvs "id" with
    | none =>
      refine ⟨{ st with errs := st.errs ++ [⟨i + 2, .missingId i, .error⟩] }, ?_, ?_, ?_⟩
      · rw [headerEntryStep]
        simp only [Yaml.pyIn, hi]
        rfl
      · simp [entryIdOf, hi, List.countP_append, List.countP_cons, isDupFmFor]
      · simp [entryIdOf, hi]
    | some v =>
      rw [hi] at hid
      have hmm : ∃ l, validate_multimodal_fields kvs v (i + 2) pe = .ok l := by
        rw [validate_multimodal_fields]
        cases hc : Yaml.lookup kvs "content_path" with
        | none => exact ⟨_, rfl⟩
        | some pv =>
          rw [hc] at hcp
          match pv, hcp with
          | .str p, _ =>
            by_cases hm : isMediaType (Yaml.lookup kvs "type") <;>
              by_cases hp : pe p <;> simp [hm, hp]
      obtain ⟨l, hl⟩ := hmm
      refine ⟨⟨st.errs ++
          (if keyMem v st.fm_chunks then [⟨i + 2, VKind.dupFm v, Sev.error⟩] else []) ++
          (if (Yaml.lookup kvs "context").isNone then
            [⟨i + 2, VKind.missingContext v, Sev.warning⟩] else []) ++
          validate_temporal_fields kvs v (i + 2) ++
          validate_agentic_fields kvs v (i + 2)
            (if st.all_ids.any (fun y => Yaml.scalarEq y v) then st.all_ids
             else st.all_ids ++ [v]) ++ l,
          (if keyMem v st.fm_chunks then st.fm_chunks
           else st.fm_chunks ++ [(v, .map kvs)]),
          (if st.all_ids.any (fun y => Yaml.scalarEq y v) then st.all_ids
           else st.all_ids ++ [v])⟩, ?_, ?_, ?_⟩
      · rw [headerEntryStep]
        simp only [Yaml.pyIn, hi, Option.isSome_some, Bool.not_true, Bool.false_eq_true,
          if_false, Option.getD_some]
        rw [setAdd, if_pos hid, hl]
      · simp only [entryIdOf, hi]
        rw [List.countP_append, List.countP_append, List.countP_append, List.countP_append,
          temporal_countP kvs v (i + 2) (isDupFmFor x) rfl rfl,
          agentic_countP kvs v (i + 2) _ (isDupFmFor x) rfl (fun s => rfl) rfl rfl,
          multimodal_countP kvs v (i + 2) pe l (isDupFmFor x) hl rfl (fun q => rfl) rfl]
        have hctx : (if (Yaml.lookup kvs "context").isNone then
            [(⟨i + 2, VKind.missingContext v, Sev.warning⟩ : VError)] else []).countP
            (isDupFmFor x) = 0 := by
          by_cases hc : (Yaml.lookup kvs "context").isNone = true <;>
            simp [hc, List.countP_cons, isDupFmFor]
        rw [hctx]
        by_cases hsx : Yaml.scalarEq v (.str x) = true <;>
          by_cases hk : keyMem v st.fm_chunks = true <;>
            simp [hsx, hk, List.countP_cons, List.countP_nil, isDupFmFor]
      · simp [entryIdOf, hi]

theorem headerFold_dup (pe : String → Bool) (x : String) (entries : List Yaml) :
    ∀ (i : Nat) (st : HeaderSt), entries.all goodEntryV = true →
    ∃ st1, headerFold pe entries i st = .ok st1 ∧
      st1.errs.countP (isDupFmFor x) =
        st.errs.countP (isDupFmFor x) +
          (if keyMem (.str x) st.fm_chunks then occOf x entries
           else occOf x entries - 1) ∧
      fmLookup (.str x) st1.fm_chunks =
        (match fmLookup (.str x) st.fm_chunks with
         | some d => some d
         | none => firstDefWithId x entries) := by
  induction entries with
  | nil =>
    intro i st _
    refine ⟨st, rfl, ?_, ?_⟩
    · by_cases hk : keyMem (.str x) st.fm_chunks = true <;> simp [hk, occOf]
    · cases fmLookup (.str x) st.fm_chunks <;> rfl
  | cons e rest ih =>
    intro i st hall
    rw [List.all_cons, Bool.and_eq_true] at hall
    obtain ⟨st1, hstep, hcount, hfm⟩ := headerEntryStep_dup pe st i e hall.1 x
    rw [headerFold, hstep]
    obtain ⟨st2, hfold, hcount2, hfm2⟩ := ih (i + 1) st1 hall.2
    have hoccCons : occOf x (e :: rest) = occOf x rest +
        (if (match entryIdOf e with
             | some v => Yaml.scalarEq v (.str x)
             | none => false) = true then 1 else 0) := List.countP_cons _ _ _
    refine ⟨st2, hfold, ?_, ?_⟩
    · cases hie : entryIdOf e with
      | none =>
        rw [hie] at hcount hfm
        dsimp only at hcount hfm
        rw [hcount2, hfm, hcount, hoccCons, hie]
        simp
      | some v =>
        rw [hie] at hcount hfm
        dsimp only at hcount hfm
        by_cases hsx : Yaml.scalarEq v (.str x) = true
        · have hv : v = .str x := scalarEq_str v x hsx
          subst hv
          by_cases hk : keyMem (.str x) st.fm_chunks = true
          · rw [if_pos hk] at hfm
            rw [hcount2, hfm, hcount, hoccCons, hie, hk]
            simp [hsx, hk]
            omega
          · rw [if_neg hk] at hfm
            have hk1 : keyMem (.str x) st1.fm_chunks = true := by
              rw [hfm, keyMem_isSome, fmLookup_append_single]
              rw [Bool.not_eq_true] at hk
              rw [keyMem_isSome] at hk
              cases hlk : fmLookup (.str x) st.fm_chunks with
              | some d => rw [hlk] at hk; cases hk
              | none =>
                have : Yaml.scalarEq (.str x) (.str x) = true := by
                  rw [Yaml.scalarEq]
                  exact beq_self_eq_true x
                rw [this]
                rfl
            rw [hcount2, hk1, hcount, hoccCons, hie]
            rw [Bool.not_eq_true] at hk
            simp [hsx, hk]
        · rw [Bool.not_eq_true] at hsx
          have hcount' : st1.errs.countP (isDupFmFor x) = st.errs.countP (isDupFmFor x) := by
            rw [hcount, hsx]
            simp
          have hkeep : keyMem (.str x) st1.fm_chunks = keyMem (.str x) st.fm_chunks := by
            by_cases hkv : keyMem v st.fm_chunks = true
            · rw [hfm, if_pos hkv]
            · rw [hfm, if_neg hkv, keyMem_isSome, keyMem_isSome, fmLookup_append_single]
              cases hlk : fmLookup (.str x) st.fm_chunks with
              | some d => rfl
              | none => rw [hsx]; rfl
          rw [hcount2, hkeep, hcount', hoccCons, hie]
          simp [hsx]
    · cases hie : entryIdOf e with
      | none =>
        rw [hie] at hfm
        dsimp only at hfm
        rw [hfm2, hfm]
        have hfind : firstDefWithId x (e :: rest) = firstDefWithId x rest :=
          List.find?_cons_of_neg _ (by simp [hie])
        rw [hfind]
      | some v =>
        rw [hie] at hfm
        dsimp only at hfm
        by_cases hsx : Yaml.scalarEq v (.str x) = true
        · have hv : v = .str x := scalarEq_str v x hsx
          subst hv
          have hfind : firstDefWithId x (e :: rest) = some e :=
            List.find?_cons_of_pos _ (by simp [hie, hsx])
          rw [hfind]
          by_cases hk : keyMem (.str x) st.fm_chunks = true
          · rw [if_pos hk] at hfm
            have hks : (fmLookup (.str x) st.fm_chunks).isSome = true := by
              rw [← keyMem_isSome]; exact hk
            cases hlk : fmLookup (.str x) st.fm_chunks with
            | none => rw [hlk] at hks; cases hks
            | some d =>
              rw [hfm2, hfm, hlk]
          · rw [if_neg hk] at hfm
            have hk' : fmLookup (.str x) st.fm_chunks = none := by
              rw [Bool.not_eq_true, keyMem_isSome] at hk
              cases hlk : fmLookup (.str x) st.fm_chunks with
              | none => rfl
              | some d => rw [hlk] at hk; cases hk
            have hl1 : fmLookup (.str x) st1.fm_chunks = some e := by
              rw [hfm, fmLookup_append_single, hk']
              have : Yaml.scalarEq (.str x) (.str x) = true := by
                rw [Yaml.scalarEq]
                exact beq_self_eq_true x
              rw [this]
              rfl
            rw [hfm2, hl1, hk']
        · rw [Bool.not_eq_true] at hsx
          have hfind : firstDefWithId x (e :: rest) = firstDefWithId x rest :=
            List.find?_cons_of_neg _ (by simp [hie, hsx])
          have hkeep : fmLookup (.str x) st1.fm_chunks = fmLookup (.str x) st.fm_chunks := by
            by_cases hkv : keyMem v st.fm_chunks = true
            · rw [hfm, if_pos hkv]
            · rw [hfm, if_neg hkv, fmLookup_append_single]
              cases hlk : fmLookup (.str x) st.fm_chunks with
              | some d => rfl
              | none => rw [hsx]; rfl
          rw [hfm2, hkeep, hfind]

theorem loadCount_eq_occ (bg : String → Option String) (entries : List Yaml) (x : String)
    (hgood : entries.all goodEntryD = true) (hx : x ≠ "") :
    (entries.filterMap (entryRecord bg)).countP (fun c => c.id = x) = occOf x entries := by
  induction entries with
  | nil => rfl
  | cons e rest ih =>
    rw [List.all_cons, Bool.and_eq_true] at hgood
    have hocc : occOf x (e :: rest) = occOf x rest +
        (if (match entryIdOf e with
             | some v => Yaml.scalarEq v (.str x)
             | none => false) = true then 1 else 0) := List.countP_cons _ _ _
    rw [List.filterMap_cons, hocc, ← ih hgood.2]
    match e, hgood.1 with
    | .map kvs, hg =>
      rw [goodEntryD] at hg
      simp only [Bool.and_eq_true] at hg
      cases hi : Yaml.lookup kvs "id" with
      | none =>
        rw [entryRecord, hi]
        simp [entryIdOf, hi]
      | some v =>
        have hgi := hg.1.1
        rw [hi] at hgi
        match v, hgi with
        | .str s, _ =>
          by_cases hs : s = ""
          · subst hs
            rw [entryRecord, hi]
            simp only [if_pos rfl, entryIdOf, hi]
            have hbx : (Yaml.scalarEq (.str "") (.str x)) = false := by
              rw [Yaml.scalarEq]
              exact beq_eq_false_iff_ne.mpr (fun hh => hx hh.symm)
            rw [hbx]
            simp
          · rw [entryRecord, hi]
            dsimp only
            rw [if_neg hs, List.countP_cons]
            simp only [entryIdOf, hi]
            have hsc : (Yaml.scalarEq (.str s) (.str x)) = (s == x) := rfl
            rw [hsc]
            by_cases hsx : s = x
            · subst hsx
              simp
            · have h1 : (s == x) = false := beq_eq_false_iff_ne.mpr hsx
              have h2 : (decide (s = x)) = false := decide_eq_false hsx
              simp [h1, h2]

/-- C6 (corrected): with the same id declared by two header entries, the
diagnostics loader creates one canonical record PER occurrence — the
duplicate is not collapsed to the first definition in that later stage. -/
theorem C6_counterexample :
    load_chunks (mkFm docC6entries) [] =
      .ok [{ id := "a:x", context := "c", content := "", tags := [] },
           { id := "a:x", context := "c", content := "", tags := [] }] ∧
    (loadedOf (load_chunks (mkFm docC6entries) [])).countP (fun c => c.id = "a:x") = 2 :=
  ⟨rfl, rfl⟩

/-- C6 (amended): an id declared exactly twice in the header yields exactly
one duplicate-id error, and the validator keeps the FIRST occurrence's
definition as canonical in `fm_chunks`; the diagnostics loader, however,
creates one record per occurrence (two records for an id declared twice),
so the duplicate does contribute an additional canonical record there. -/
theorem C6_amended (entries : List Yaml) (x : String) (body : List BItem)
    (pe : String → Bool)
    (hgood : entries.all (fun e => goodEntryV e && goodEntryD e) = true)
    (hx : x ≠ "") (hocc : occOf x entries = 2) :
    ∃ st, processHeader (mkFm entries) pe = .ok st ∧
      st.errs.countP (isDupFmFor x) = 1 ∧
      fmLookup (.str x) st.fm_chunks = firstDefWithId x entries ∧
      ∃ l, load_chunks (mkFm entries) body = .ok l ∧
        l.countP (fun c => c.id = x) = 2 := by
  have hgV : entries.all goodEntryV = true := by
    rw [List.all_eq_true] at hgood ⊢
    intro e he
    exact ((Bool.and_eq_true _ _).mp (hgood e he)).1
  have hgD : entries.all goodEntryD = true := by
    rw [List.all_eq_true] at hgood ⊢
    intro e he
    exact ((Bool.and_eq_true _ _).mp (hgood e he)).2
  obtain ⟨st, hfold, hcount, hfm⟩ := headerFold_dup pe x entries 0 ⟨[], [], []⟩ hgV
  refine ⟨st, hfold, ?_, ?_, ?_⟩
  · rw [hcount, hocc]
    rfl
  · rw [hfm]
    rfl
  · refine ⟨_, load_chunks_mkFm entries body hgD, ?_⟩
    rw [loadCount_eq_occ (extract_chunks body) entries x hgD hx, hocc]

theorem C6_amended_witness :
    ∃ st, processHeader (mkFm docC6entries) (fun _ => false) = .ok st ∧
      st.errs.countP (isDupFmFor "a:x") = 1 ∧
      fmLookup (.str "a:x") st.fm_chunks = firstDefWithId "a:x" docC6entries ∧
      ∃ l, load_chunks (mkFm docC6entries) [] = .ok l ∧
        l.countP (fun c => c.id = "a:x") = 2 :=
  C6_amended docC6entries "a:x" [] (fun _ => false) (by decide) (by decide) (by decide)
